import Mathlib

/-!
Verification of the starz console/teleport core against its specification.

The Python sources are shallowly embedded: every embedded definition mirrors one
function of the repository (module and line references are given in the doc
comments). Python floats are modelled by the exact fraction type `Q` below;
dictionaries by association lists preserving the insertion-order semantics of
Python dicts; deques by lists (head = left end); network and randomness effects
by explicit oracle arguments; raised exceptions by `Except`.
-/

/-! ## Exact fractions standing in for Python floats

All float arithmetic in the sources is addition, subtraction, multiplication
and comparisons, so an unnormalised fraction over `Int` models it exactly and
stays computable by the kernel. The invariant `0 < den` holds for every value
built by the operations below from integer literals and parsed decimals. -/

structure Q where
  num : Int
  den : Int
deriving DecidableEq, Repr

def Q.ofInt (n : Int) : Q := ⟨n, 1⟩

def Q.add (a b : Q) : Q := ⟨a.num * b.den + b.num * a.den, a.den * b.den⟩

def Q.sub (a b : Q) : Q := ⟨a.num * b.den - b.num * a.den, a.den * b.den⟩

def Q.mul (a b : Q) : Q := ⟨a.num * b.num, a.den * b.den⟩

/-- `a < b` on fractions with positive denominators, as the sources compare floats. -/
def Q.blt (a b : Q) : Bool := decide (a.num * b.den < b.num * a.den)

/-- `a <= b` on fractions with positive denominators. -/
def Q.ble (a b : Q) : Bool := decide (a.num * b.den ≤ b.num * a.den)

/-- Python float falsiness test (`x or default` takes `default` exactly when `x == 0.0`). -/
def Q.isZero (a : Q) : Bool := a.num = 0

def Q.str (q : Q) : String := toString q.num ++ "/" ++ toString q.den

/-! ## Association lists with Python-dict semantics

Python dicts keep the original position of an updated key and append fresh keys
at the end; deletion preserves the order of the remaining entries. -/

def lookupA {K V : Type} [DecidableEq K] (m : List (K × V)) (k : K) : Option V :=
  match m with
  | [] => none
  | (k', v) :: rest => if k' = k then some v else lookupA rest k

/-- `m.get(k, d)` of Python. -/
def lookupD {K V : Type} [DecidableEq K] (m : List (K × V)) (k : K) (d : V) : V :=
  (lookupA m k).getD d

/-- `m[k] = v` of Python: overwrite in place or append at the end. -/
def insertA {K V : Type} [DecidableEq K] (m : List (K × V)) (k : K) (v : V) : List (K × V) :=
  match m with
  | [] => [(k, v)]
  | (k', v') :: rest => if k' = k then (k, v) :: rest else (k', v') :: insertA rest k v

/-- `m.pop(k, None)` of Python: drop the entry for `k`, keep the rest in order. -/
def eraseA {K V : Type} [DecidableEq K] (m : List (K × V)) (k : K) : List (K × V) :=
  m.filter (fun p => p.1 ≠ k)

/-! ## rcon_web.py — wire frames and the response wait -/

/-- One JSON message on the WebRCON channel: `Identifier` may be absent
(`data.get("Identifier")` is then `None`), `Message` is the text payload. -/
structure Frame where
  identifier : Option Int
  message : String
deriving DecidableEq, Repr

/-- Embedding of `WebRconClient._recv_until_id` (src/rcon_web.py lines 68-83):
read messages from the incoming stream until one carries the requested
`Identifier`; every other frame (in particular the id-0 console spam) is
skipped. Returns the matching frame (or `none`, modelling the timeout when the
stream is exhausted without a match) together with the frames that were
consumed and skipped while waiting. -/
def recv_until_id (identifier : Int) : List Frame → Option Frame × List Frame
  | [] => (none, [])
  | f :: rest =>
    if f.identifier = some identifier then (some f, [])
    else
      let r := recv_until_id identifier rest
      (r.1, f :: r.2)

/-- The frames that `_recv_until_id` hands over to any ingest/classification
path while waiting. In the source the only hand-off of a skipped frame
(src/rcon_web.py line 83) is commented out, so the loop routes nothing: every
skipped frame is simply discarded. -/
def recv_until_id_routed_to_ingest (_identifier : Int) (_stream : List Frame) : List Frame := []

/-- Modelled from the spec: "All frames with id 0 (or without the field) are
not responses — they are unsolicited log lines and must be routed to the
ingest pipeline". Under that sentence the wait loop would hand every skipped
id-0 frame to ingest. -/
def spec_ingest_routed (identifier : Int) (stream : List Frame) : List Frame :=
  (recv_until_id identifier stream).2.filter (fun f => f.identifier = some 0)

/-- Embedding of `RconManager.broadcast` (src/rcon_web.py lines 152-166).
`outcomes` lists, per configured client in iteration order, what that client
`send_command` would do for this command: a response frame or a raised
exception. The source appends successful responses to `results` and, on an
exception, only prints a log line and continues; it returns `results`. -/
def broadcast (outcomes : List (String × Except String Frame)) : List (String × Frame) :=
  outcomes.foldl
    (fun results kr =>
      match kr.2 with
      | .ok resp => results ++ [(kr.1, resp)]
      | .error _ => results)
    []

/-! ## rcon_web.py — connection state and send_command -/

structure Socket where
  sid : Nat
  closed : Bool
deriving DecidableEq, Repr

/-- Connection-relevant state of a `WebRconClient`: the websocket (if any) and
the monotonically increasing `_next_id` counter (src/rcon_web.py lines 40-47,
`self.ws = None`, `self._next_id = 1`). -/
structure ClientState where
  ws : Option Socket
  next_id : Int
deriving DecidableEq, Repr

/-- Fresh-state of a client as built by `__init__`. -/
def ClientState.initial : ClientState := { ws := none, next_id := 1 }

/-- The `websockets.connect` attempt inside `connect`: succeed with a socket or
raise. On failure `self.ws` is left untouched because the assignment never
runs. -/
def connect_fresh (st : ClientState) (net : Except String Socket) :
    ClientState × Except String Unit :=
  match net with
  | .ok s => ({ st with ws := some s }, .ok ())
  | .error e => (st, .error e)

/-- Embedding of `WebRconClient.connect` (src/rcon_web.py lines 54-66): if a
socket is present and open, return at once; otherwise attempt a fresh
connection, raising on failure. `net` is the outcome the network would give a
fresh attempt. -/
def connect (st : ClientState) (net : Except String Socket) :
    ClientState × Except String Unit :=
  match st.ws with
  | some s => if !s.closed then (st, .ok ()) else connect_fresh st net
  | none => connect_fresh st net

/-- Embedding of `WebRconClient.close` (src/rcon_web.py lines 118-121): the
socket (if open) is closed and `self.ws` is set to `None`. -/
def close (st : ClientState) : ClientState := { st with ws := none }

inductive RconError where
  | connectFailed (e : String)
  | timeout
deriving DecidableEq, Repr

/-- The JSON payload `send_command` writes to the socket (src/rcon_web.py
lines 99-105). -/
structure Payload where
  identifier : Int
  message : String
  name : String
deriving DecidableEq, Repr

/-- Embedding of `WebRconClient.send_command` (src/rcon_web.py lines 85-116).
Under the per-connection lock: call `connect()` (re-raising its failure);
assign `identifier = self._next_id` and increment the counter; write the
payload; wait via `_recv_until_id`; on success return the response frame; on a
timeout while waiting, `close()` the socket and re-raise. Returns the new
state, the payload written to the socket (if the send was reached) and the
result. `stream` is the sequence of frames the socket would deliver; a stream
with no matching frame models the timeout. -/
def send_command (st : ClientState) (net : Except String Socket) (command : String)
    (stream : List Frame) : ClientState × Option Payload × Except RconError Frame :=
  match connect st net with
  | (st1, .error e) => (st1, none, .error (.connectFailed e))
  | (st1, .ok _) =>
    let identifier := st1.next_id
    let st2 : ClientState := { st1 with next_id := st1.next_id + 1 }
    let payload : Payload := { identifier := identifier, message := command, name := "WebRcon" }
    match recv_until_id identifier stream with
    | (some f, _) => (st2, some payload, .ok f)
    | (none, _) => (close st2, some payload, .error .timeout)

/-- A sequence of `send_command` calls on one connection, threading the client
state; collects the payloads actually written and the per-call results. -/
def run_send_commands (st : ClientState) :
    List (Except String Socket × String × List Frame) →
      ClientState × List Payload × List (Except RconError Frame)
  | [] => (st, [], [])
  | (net, cmd, stream) :: rest =>
    let r := send_command st net cmd stream
    let rr := run_send_commands r.1 rest
    (rr.1, r.2.1.toList ++ rr.2.1, r.2.2 :: rr.2.2)

/-- Identifiers of the payloads a run of `send_command` calls writes. -/
def run_send_ids (st : ClientState) (calls : List (Except String Socket × String × List Frame)) :
    List Int :=
  ((run_send_commands st calls).2.1).map (fun p => p.identifier)

/-! ## Helper lemmas about the response wait and the client state -/

/-- A frame returned by `recv_until_id` carries exactly the requested identifier. -/
theorem recv_until_id_matches (identifier : Int) :
    ∀ (stream : List Frame) (f : Frame),
      (recv_until_id identifier stream).1 = some f → f.identifier = some identifier := by
  intro stream
  induction stream with
  | nil => intro f h; simp [recv_until_id] at h
  | cons g rest ih =>
    intro f h
    by_cases hg : g.identifier = some identifier
    · simp [recv_until_id, hg] at h
      rw [← h]; exact hg
    · simp [recv_until_id, hg] at h
      exact ih f h

/-- `connect` never touches the request-id counter. -/
theorem connect_next_id (st : ClientState) (net : Except String Socket) :
    (connect st net).1.next_id = st.next_id := by
  unfold connect connect_fresh
  cases hw : st.ws with
  | none => cases net <;> simp
  | some s => cases net <;> by_cases hc : s.closed <;> simp [hc]

/-- Case split of `send_command`: either `connect` failed (no payload written,
counter untouched) or a payload carrying the pre-call counter value was
written and the counter advanced by one. -/
theorem send_command_payload_cases (st : ClientState) (net : Except String Socket)
    (cmd : String) (stream : List Frame) :
    ((send_command st net cmd stream).2.1 = none
      ∧ (send_command st net cmd stream).1.next_id = st.next_id)
    ∨ ((send_command st net cmd stream).2.1
          = some { identifier := st.next_id, message := cmd, name := "WebRcon" }
      ∧ (send_command st net cmd stream).1.next_id = st.next_id + 1) := by
  unfold send_command
  cases hc : connect st net with
  | mk st1 r =>
    have hn : st1.next_id = st.next_id := by
      have := connect_next_id st net
      rw [hc] at this
      exact this
    cases r with
    | error e => left; simp [hn]
    | ok u =>
      right
      cases hr : recv_until_id st1.next_id stream with
      | mk o skipped =>
        rw [hn] at hr
        cases o with
        | none => simp [close, hn, hr]
        | some f => simp [close, hn, hr]

/-- Every identifier a run of `send_command` calls writes is at least the
initial counter value, and they are pairwise strictly increasing in order. -/
theorem run_send_ids_pairwise (calls : List (Except String Socket × String × List Frame)) :
    ∀ st : ClientState,
      List.Pairwise (· < ·) (run_send_ids st calls)
      ∧ ∀ i ∈ run_send_ids st calls, st.next_id ≤ i := by
  induction calls with
  | nil => intro st; simp [run_send_ids, run_send_commands]
  | cons c rest ih =>
    intro st
    obtain ⟨net, cmd, stream⟩ := c
    have hrun : run_send_ids st ((net, cmd, stream) :: rest)
        = ((send_command st net cmd stream).2.1.toList.map (fun p => p.identifier))
          ++ run_send_ids (send_command st net cmd stream).1 rest := by
      simp [run_send_ids, run_send_commands]
    rcases send_command_payload_cases st net cmd stream with ⟨hp, hn⟩ | ⟨hp, hn⟩
    · rw [hrun, hp]
      simpa [hn] using ih (send_command st net cmd stream).1
    · rw [hrun, hp]
      have htail := ih (send_command st net cmd stream).1
      rw [hn] at htail
      constructor
      · simp only [Option.toList_some, List.map_cons, List.map_nil, List.singleton_append]
        refine List.Pairwise.cons ?_ htail.1
        intro i hi
        have := htail.2 i hi
        omega
      · intro i hi
        simp only [Option.toList_some, List.map_cons, List.map_nil, List.singleton_append,
          List.mem_cons] at hi
        rcases hi with rfl | hi
        · omega
        · have := htail.2 i hi
          omega

/-! ## Claims C2, C3, C5, C7 -/

/-- C2, counterexample. A concrete wait in which an id-0 frame arrives before
the awaited id-1 response: the id-0 frame is consumed and skipped by
`_recv_until_id`, the spec asks for it to be routed to the ingest path, but
the code routes nothing — the frame is dropped. -/
theorem C2_counterexample :
    recv_until_id 1 [⟨some 0, "log"⟩, ⟨some 1, "ok"⟩]
        = (some ⟨some 1, "ok"⟩, [⟨some 0, "log"⟩])
    ∧ spec_ingest_routed 1 [⟨some 0, "log"⟩, ⟨some 1, "ok"⟩] = [⟨some 0, "log"⟩]
    ∧ recv_until_id_routed_to_ingest 1 [⟨some 0, "log"⟩, ⟨some 1, "ok"⟩] = [] := by
  decide

/-- C2, amended. A frame whose Identifier is 0 is never returned by the
response wait to a sender awaiting an identifier at least 1, and such frames
are not treated as send failures (a matching response arriving after them is
still found and returned, with the spam merely skipped); however the skipped
frames are dropped by the wait loop, not routed to an ingest path. -/
theorem C2_id0_skipped_never_delivered (identifier : Int) (hid : 1 ≤ identifier) :
    (∀ (stream : List Frame) (f : Frame),
        (recv_until_id identifier stream).1 = some f →
          f.identifier = some identifier ∧ f.identifier ≠ some 0)
    ∧ (∀ (pre post : List Frame) (f : Frame),
        (∀ g ∈ pre, g.identifier ≠ some identifier) →
        f.identifier = some identifier →
        recv_until_id identifier (pre ++ f :: post) = (some f, pre))
    ∧ (∀ stream : List Frame, recv_until_id_routed_to_ingest identifier stream = []) := by
  refine ⟨?_, ?_, fun _ => rfl⟩
  · intro stream f h
    have hm := recv_until_id_matches identifier stream f h
    refine ⟨hm, ?_⟩
    rw [hm]
    simp only [ne_eq, Option.some.injEq]
    omega
  · intro pre
    induction pre with
    | nil =>
      intro post f _ hf
      simp [recv_until_id, hf]
    | cons g rest ih =>
      intro post f hpre hf
      have hg : g.identifier ≠ some identifier := hpre g (by simp)
      have htail := ih post f (fun x hx => hpre x (by simp [hx])) hf
      simp [recv_until_id, hg, htail]

/-- C2, witness for the amended theorem at identifier 1 with one id-0 spam
frame ahead of the response. -/
theorem C2_witness :
    (1 : Int) ≤ 1
    ∧ recv_until_id 1 [⟨some 0, "spam"⟩, ⟨some 1, "pong"⟩]
        = (some ⟨some 1, "pong"⟩, [⟨some 0, "spam"⟩]) :=
  ⟨by decide,
   (C2_id0_skipped_never_delivered 1 (by decide)).2.1 [⟨some 0, "spam"⟩] [] ⟨some 1, "pong"⟩
     (by decide) (by decide)⟩

/-- C3, counterexample. One failing server and one healthy server: the map
returned by `broadcast` has no entry at all for the failing server (the error
is only logged), so it does not contain "a per-server error entry for each of
the M failing servers"; the healthy server that is iterated after the failure
is still served. -/
theorem C3_counterexample :
    broadcast [("s1", Except.error "boom"), ("s2", Except.ok ⟨some 3, "ok"⟩)]
        = [("s2", ⟨some 3, "ok"⟩)]
    ∧ lookupA (broadcast [("s1", Except.error "boom"),
        ("s2", Except.ok ⟨some 3, "ok"⟩)]) "s1" = none := by
  decide

/-- C3, amended. `broadcast` over the configured servers returns a map with a
successful response entry for every healthy server, in iteration order, and
no entry for the failing servers (their errors are logged and swallowed); a
failure neither aborts the iteration over the remaining servers nor raises an
aggregate error, so the result has exactly N−M entries. -/
theorem C3_broadcast_partial_results (outcomes : List (String × Except String Frame)) :
    broadcast outcomes
        = outcomes.filterMap (fun kr =>
            match kr.2 with
            | .ok v => some (kr.1, v)
            | .error _ => none)
    ∧ (broadcast outcomes).length
        = (outcomes.filter (fun kr =>
            match kr.2 with
            | .ok _ => true
            | .error _ => false)).length := by
  have hgo : ∀ (l : List (String × Except String Frame)) (acc : List (String × Frame)),
      l.foldl (fun results kr =>
          match kr.2 with
          | .ok resp => results ++ [(kr.1, resp)]
          | .error _ => results) acc
        = acc ++ l.filterMap (fun kr =>
            match kr.2 with
            | .ok v => some (kr.1, v)
            | .error _ => none) := by
    intro l
    induction l with
    | nil => intro acc; simp
    | cons kr rest ih =>
      intro acc
      obtain ⟨k, r⟩ := kr
      cases r with
      | ok v => simp [List.filterMap_cons, ih]
      | error e => simp [List.filterMap_cons, ih]
  have hmain : broadcast outcomes
      = outcomes.filterMap (fun kr =>
          match kr.2 with
          | .ok v => some (kr.1, v)
          | .error _ => none) := by
    unfold broadcast
    simpa using hgo outcomes []
  refine ⟨hmain, ?_⟩
  rw [hmain]
  clear hmain hgo
  induction outcomes with
  | nil => simp
  | cons kr rest ih =>
    obtain ⟨k, r⟩ := kr
    cases r with
    | ok v => simpa [List.filterMap_cons] using ih
    | error e => simpa [List.filterMap_cons] using ih

/-- C5. On a response timeout inside `send_command` the socket is force-closed
(`ws` becomes `none`) and the timeout is surfaced to the caller as a single
`timeout` failure — the wait is not retried inside the call; the next
`send_command` call on the now-socketless client runs its internal `connect()`
and, with the network healthy, transparently reopens the connection and
succeeds, without the caller invoking `connect` explicitly. -/
theorem C5_timeout_close_then_transparent_reconnect :
    (∀ (st st1 : ClientState) (net : Except String Socket) (cmd : String)
        (stream : List Frame),
        connect st net = (st1, .ok ()) →
        (recv_until_id st1.next_id stream).1 = none →
        send_command st net cmd stream =
          ({ ws := none, next_id := st1.next_id + 1 },
           some { identifier := st1.next_id, message := cmd, name := "WebRcon" },
           .error .timeout))
    ∧ (∀ (st : ClientState) (sock : Socket) (cmd : String) (stream : List Frame) (f : Frame),
        st.ws = none →
        (recv_until_id st.next_id stream).1 = some f →
        send_command st (.ok sock) cmd stream =
          ({ ws := some sock, next_id := st.next_id + 1 },
           some { identifier := st.next_id, message := cmd, name := "WebRcon" },
           .ok f)) := by
  constructor
  · intro st st1 net cmd stream hconn hto
    unfold send_command
    rw [hconn]
    cases hr : recv_until_id st1.next_id stream with
    | mk o skipped =>
      rw [hr] at hto
      simp only at hto
      subst hto
      simp [hr, close]
  · intro st sock cmd stream f hws hok
    have hconn : connect st (.ok sock) = ({ st with ws := some sock }, .ok ()) := by
      unfold connect connect_fresh
      rw [hws]
    unfold send_command
    rw [hconn]
    cases hr : recv_until_id st.next_id stream with
    | mk o skipped =>
      rw [hr] at hok
      simp only at hok
      subst hok
      simp [hr]

/-- C5, witness: a client with an open socket times out waiting (only id-0
spam arrives), closes the socket and surfaces the failure; the follow-up call
on the closed client reconnects by itself and succeeds. -/
theorem C5_witness :
    connect { ws := some { sid := 7, closed := false }, next_id := 5 } (.error "down")
        = ({ ws := some { sid := 7, closed := false }, next_id := 5 }, .ok ())
    ∧ send_command { ws := some { sid := 7, closed := false }, next_id := 5 }
        (.error "down") "status" [⟨some 0, "spam"⟩]
        = ({ ws := none, next_id := 6 },
           some { identifier := 5, message := "status", name := "WebRcon" },
           .error .timeout)
    ∧ send_command { ws := none, next_id := 6 } (.ok { sid := 8, closed := false })
        "status" [⟨some 6, "pong"⟩]
        = ({ ws := some { sid := 8, closed := false }, next_id := 7 },
           some { identifier := 6, message := "status", name := "WebRcon" },
           .ok ⟨some 6, "pong"⟩) :=
  ⟨rfl,
   C5_timeout_close_then_transparent_reconnect.1
     { ws := some { sid := 7, closed := false }, next_id := 5 }
     { ws := some { sid := 7, closed := false }, next_id := 5 }
     (.error "down") "status" [⟨some 0, "spam"⟩] rfl rfl,
   C5_timeout_close_then_transparent_reconnect.2
     { ws := none, next_id := 6 } { sid := 8, closed := false }
     "status" [⟨some 6, "pong"⟩] ⟨some 6, "pong"⟩ rfl rfl⟩

/-- C7. On one connection every `send_command` call that reaches the send is
assigned an identifier strictly greater than every identifier assigned
before it (the written payload identifiers of any call sequence are pairwise
strictly increasing in order), and whenever a call returns a response frame,
that frame carries exactly the identifier of the payload this call wrote,
whatever other frames arrive in between. -/
theorem C7_request_id_unique_and_correlated :
    (∀ (st : ClientState) (calls : List (Except String Socket × String × List Frame)),
        List.Pairwise (· < ·) (run_send_ids st calls))
    ∧ (∀ (st : ClientState) (net : Except String Socket) (cmd : String)
        (stream : List Frame) (p : Payload) (f : Frame),
        (send_command st net cmd stream).2.1 = some p →
        (send_command st net cmd stream).2.2 = .ok f →
        f.identifier = some p.identifier) := by
  constructor
  · intro st calls
    exact (run_send_ids_pairwise calls st).1
  · intro st net cmd stream p f hp hf
    unfold send_command at hp hf
    cases hc : connect st net with
    | mk st1 r =>
      rw [hc] at hp hf
      cases r with
      | error e => simp at hp
      | ok u =>
        simp only at hp hf
        cases hr : recv_until_id st1.next_id stream with
        | mk o skipped =>
          rw [hr] at hp hf
          cases o with
          | none => simp at hf
          | some g =>
            simp only [Option.some.injEq] at hp
            simp only [Except.ok.injEq] at hf
            have hg : g.identifier = some st1.next_id := by
              apply recv_until_id_matches st1.next_id stream
              rw [hr]
            rw [← hf, ← hp, hg]

/-- C7, witness: two consecutive calls on a fresh client write identifiers 1
then 2 (strictly increasing), and the frame returned to the first call is the
one carrying its own payload identifier even though id-0 spam precedes it. -/
theorem C7_witness :
    run_send_ids ClientState.initial
        [(.ok { sid := 1, closed := false }, "status", [⟨some 1, "a"⟩]),
         (.ok { sid := 1, closed := false }, "serverinfo", [⟨some 2, "b"⟩])] = [1, 2]
    ∧ (send_command ClientState.initial (.ok { sid := 1, closed := false }) "status"
        [⟨some 0, "spam"⟩, ⟨some 1, "pong"⟩]).2.1
        = some { identifier := 1, message := "status", name := "WebRcon" }
    ∧ (send_command ClientState.initial (.ok { sid := 1, closed := false }) "status"
        [⟨some 0, "spam"⟩, ⟨some 1, "pong"⟩]).2.2 = .ok ⟨some 1, "pong"⟩
    ∧ (⟨some 1, "pong"⟩ : Frame).identifier
        = some ({ identifier := 1, message := "status", name := "WebRcon" } : Payload).identifier :=
  ⟨by decide, rfl, rfl,
   C7_request_id_unique_and_correlated.2 ClientState.initial
     (.ok { sid := 1, closed := false }) "status" [⟨some 0, "spam"⟩, ⟨some 1, "pong"⟩]
     { identifier := 1, message := "status", name := "WebRcon" } ⟨some 1, "pong"⟩
     rfl rfl⟩

/-! ## starz_printpos/tp_config.py — constants (src/starz_printpos/tp_config.py) -/

def PRINTPOS_BATCH_SIZE : Nat := 4

def TP_ZONE_COOLDOWN : Q := ⟨3, 1⟩

def FAR_DISTANCE_METERS : Q := ⟨200, 1⟩

def FAR_SKIP_SECONDS : Q := ⟨60, 1⟩

def PRINTPOS_STATUS_LOG_SECONDS : Q := ⟨20, 1⟩

/-- src/starz_printpos/tp_tracker.py line 56. -/
def EMPTY_SERVER_COOLDOWN_SECONDS : Q := ⟨300, 1⟩

/-- Embedding of `tp_config.TELEPORT_COMMAND_TEMPLATE` applied by
`build_teleport_command`: the template with the chosen coordinates and the
player name substituted in. Fraction rendering stands in for the Python float
rendering; the claims only compare commands for identity and count. -/
def TELEPORT_COMMAND_TEMPLATE (x y z : Q) (player_name : String) : String :=
  "teleportpos \"" ++ Q.str x ++ "," ++ Q.str y ++ "," ++ Q.str z ++ "\" \""
    ++ player_name ++ "\""

/-! ## starz_printpos/tp_zones.py — zones, cooldowns, edge-triggered checks -/

/-- Embedding of the dataclass `TpZone` (src/tp_zones.py lines 53-83), with the
same defaults. `spawn_points = []` models Python `None`. -/
structure TpZone where
  tp_type : String
  slot : Int
  zone_x : Q
  zone_y : Q
  zone_z : Q
  radius : Q := ⟨120, 1⟩
  dest_x : Q := ⟨0, 1⟩
  dest_y : Q := ⟨0, 1⟩
  dest_z : Q := ⟨0, 1⟩
  color : String := "WHITE"
  enter_message : Option String := none
  exit_message : Option String := none
  trigger_radius : Q := ⟨3, 2⟩
  spawn_points : List (Q × Q × Q) := []
deriving DecidableEq, Repr

/-- Key of `_last_tp_times`: (server_key, player_name, tp_type, slot). -/
abbrev TpKey := String × String × String × Int

/-- Key of a zone inside a membership set: (tp_type, slot). -/
abbrev ZKey := String × Int

/-- Module-level mutable state of tp_zones.py: the zone store `_ZONES`
(flattened in `get_all_zones()` iteration order), `_last_tp_times` and
`_last_player_zones` (src/tp_zones.py lines 91-99). -/
structure ZonesState where
  zones : List TpZone
  last_tp_times : List (TpKey × Q)
  last_player_zones : List ((String × String) × List ZKey)
deriving DecidableEq, Repr

/-- Embedding of `_allowed_to_teleport` (src/tp_zones.py lines 327-335):
blocked while `now_ts - last < TP_ZONE_COOLDOWN` (missing entry counts as
`0.0`); on success the entry is stamped with `now_ts`. -/
def allowed_to_teleport (times : List (TpKey × Q)) (server_key player_name : String)
    (zone : TpZone) (now_ts : Q) : Bool × List (TpKey × Q) :=
  let key : TpKey := (server_key, player_name, zone.tp_type, zone.slot)
  let last := lookupD times key ⟨0, 1⟩
  if Q.blt (Q.sub now_ts last) TP_ZONE_COOLDOWN then (false, times)
  else (true, insertA times key now_ts)

/-- Embedding of `build_teleport_command` (src/tp_zones.py lines 342-355):
pick a spawn point (`random.choice` modelled by the oracle index `rand`,
reduced mod the list length) or fall back to the dest coordinates. -/
def build_teleport_command (rand : Nat) (player_name : String) (zone : TpZone) : String :=
  let p :=
    if zone.spawn_points.length > 0 then
      zone.spawn_points.getD (rand % zone.spawn_points.length) (⟨0, 1⟩, ⟨0, 1⟩, ⟨0, 1⟩)
    else
      (zone.dest_x, zone.dest_y, zone.dest_z)
  TELEPORT_COMMAND_TEMPLATE p.1 p.2.1 p.2.2 player_name

/-- The effective trigger radius: `float(getattr(zone, "trigger_radius", 1.5) or 1.5)`
(src/tp_zones.py line 380) — a zero (falsy) radius falls back to 1.5. -/
def trigger_r (zone : TpZone) : Q :=
  if zone.trigger_radius.isZero then ⟨3, 2⟩ else zone.trigger_radius

/-- The squared distance from `(x, y, z)` to the zone center
(src/tp_zones.py lines 383-386). -/
def dist2 (x y z : Q) (zone : TpZone) : Q :=
  let dx := Q.sub x zone.zone_x
  let dy := Q.sub y zone.zone_y
  let dz := Q.sub z zone.zone_z
  Q.add (Q.add (Q.mul dx dx) (Q.mul dy dy)) (Q.mul dz dz)

/-- The sphere test `dist2 <= r * r` of src/tp_zones.py line 388. -/
def in_zoneB (x y z : Q) (zone : TpZone) : Bool :=
  Q.ble (dist2 x y z zone) (Q.mul (trigger_r zone) (trigger_r zone))

/-- The body of the `for zone in get_all_zones()` loop of
`check_zones_for_player` (src/tp_zones.py lines 379-397), folding over the
zone list while accumulating the emitted commands, the current membership set
(insertion-ordered) and `_last_tp_times`. -/
def check_zones_go (server_key player_name : String) (x y z now_ts : Q) (rand : Nat)
    (prev : List ZKey) :
    List TpZone → List String → List ZKey → List (TpKey × Q) →
      List String × List ZKey × List (TpKey × Q)
  | [], cmds, cur, times => (cmds, cur, times)
  | zone :: rest, cmds, cur, times =>
    if in_zoneB x y z zone then
      let zk : ZKey := (zone.tp_type, zone.slot)
      let cur' := if zk ∈ cur then cur else cur ++ [zk]
      if zk ∈ prev then
        check_zones_go server_key player_name x y z now_ts rand prev rest cmds cur' times
      else
        let pr := allowed_to_teleport times server_key player_name zone now_ts
        if pr.1 then
          check_zones_go server_key player_name x y z now_ts rand prev rest
            (cmds ++ [build_teleport_command rand player_name zone]) cur' pr.2
        else
          check_zones_go server_key player_name x y z now_ts rand prev rest cmds cur' pr.2
    else
      check_zones_go server_key player_name x y z now_ts rand prev rest cmds cur times

/-- Embedding of `check_zones_for_player` (src/tp_zones.py lines 362-402):
reads the previous membership set, walks all zones emitting a teleport
command for every zone entered on this call (sphere test, edge trigger, then
per-(player,zone) cooldown), and stores the new membership set. `now_ts` is
the `time()` call, `rand` the `random.choice` oracle. -/
def check_zones_for_player (st : ZonesState) (rand : Nat) (server_key player_name : String)
    (x y z now_ts : Q) : List String × ZonesState :=
  let player_key := (server_key, player_name)
  let prev := lookupD st.last_player_zones player_key []
  let r := check_zones_go server_key player_name x y z now_ts rand prev st.zones
    [] [] st.last_tp_times
  (r.1,
   { st with
     last_tp_times := r.2.2,
     last_player_zones := insertA st.last_player_zones player_key r.2.1 })

/-- A sequence of `check_zones_for_player` calls for one (server, player),
each with a position, a clock value and a randomness index; collects the
per-call command lists. -/
def run_zone_checks (st : ZonesState) (server_key player_name : String) :
    List ((Q × Q × Q) × Q × Nat) → List (List String) × ZonesState
  | [] => ([], st)
  | (pos, now_ts, rand) :: rest =>
    let r := check_zones_for_player st rand server_key player_name pos.1 pos.2.1 pos.2.2 now_ts
    let rr := run_zone_checks r.2 server_key player_name rest
    (r.1 :: rr.1, rr.2)

/-! ## Helper lemmas for the zone checker -/

theorem lookupA_insertA_self {K V : Type} [DecidableEq K] (m : List (K × V)) (k : K) (v : V) :
    lookupA (insertA m k v) k = some v := by
  induction m with
  | nil => simp [insertA, lookupA]
  | cons kv rest ih =>
    obtain ⟨k', v'⟩ := kv
    by_cases hk : k' = k
    · simp [insertA, lookupA, hk]
    · simp [insertA, lookupA, hk, ih]

/-- Walking a zone list in which the position is inside no zone changes nothing. -/
theorem check_zones_go_all_out (server_key player_name : String) (x y z now_ts : Q)
    (rand : Nat) (prev : List ZKey) (zs : List TpZone)
    (h : ∀ zone ∈ zs, in_zoneB x y z zone = false) :
    ∀ cmds cur times,
      check_zones_go server_key player_name x y z now_ts rand prev zs cmds cur times
        = (cmds, cur, times) := by
  induction zs with
  | nil => intro cmds cur times; rfl
  | cons zone rest ih =>
    intro cmds cur times
    have hz : in_zoneB x y z zone = false := h zone (by simp)
    rw [check_zones_go, hz]
    exact ih (fun w hw => h w (by simp [hw])) cmds cur times

/-- The zone walk splits over list append. -/
theorem check_zones_go_append (server_key player_name : String) (x y z now_ts : Q)
    (rand : Nat) (prev : List ZKey) (l1 l2 : List TpZone) :
    ∀ cmds cur times,
      check_zones_go server_key player_name x y z now_ts rand prev (l1 ++ l2) cmds cur times
        = (fun r : List String × List ZKey × List (TpKey × Q) =>
            check_zones_go server_key player_name x y z now_ts rand prev l2 r.1 r.2.1 r.2.2)
          (check_zones_go server_key player_name x y z now_ts rand prev l1 cmds cur times) := by
  induction l1 with
  | nil => intro cmds cur times; rfl
  | cons zone rest ih =>
    intro cmds cur times
    by_cases hz : in_zoneB x y z zone = true
    · rw [List.cons_append, check_zones_go, hz, check_zones_go, hz]
      simp only
      by_cases hp : (zone.tp_type, zone.slot) ∈ prev
      · simp only [if_pos hp]
        exact ih _ _ _
      · simp only [if_neg hp]
        by_cases ha : (allowed_to_teleport times server_key player_name zone now_ts).1 = true
        · simp only [ha, if_true]
          exact ih _ _ _
        · simp only [Bool.not_eq_true] at ha
          simp only [ha, Bool.false_eq_true, if_false]
          exact ih _ _ _
    · simp only [Bool.not_eq_true] at hz
      rw [List.cons_append, check_zones_go, hz, check_zones_go, hz]
      simp only [Bool.false_eq_true, if_false]
      exact ih _ _ _

/-- A call at a position inside no zone emits nothing and resets the stored
membership set of the player to empty. -/
theorem check_zones_for_player_all_out (st : ZonesState) (rand : Nat)
    (server_key player_name : String) (x y z now_ts : Q)
    (h : ∀ zone ∈ st.zones, in_zoneB x y z zone = false) :
    check_zones_for_player st rand server_key player_name x y z now_ts
      = ([], { st with
          last_player_zones := insertA st.last_player_zones (server_key, player_name) [] }) := by
  unfold check_zones_for_player
  simp only
  rw [check_zones_go_all_out server_key player_name x y z now_ts rand _ st.zones h]

/-- A call at a position inside exactly the zone `A` (the zone list splits as
`l1 ++ A :: l2` with both sides all-out), where `A` is absent from the stored
membership set and its per-(player,zone) cooldown has elapsed: exactly one
teleport command is emitted, the cooldown entry is stamped with `now_ts`, and
the membership set becomes the singleton of `A`. -/
theorem check_zones_for_player_enter_allowed (st : ZonesState) (rand : Nat)
    (server_key player_name : String) (x y z now_ts : Q)
    (l1 l2 : List TpZone) (A : TpZone)
    (hzones : st.zones = l1 ++ A :: l2)
    (h1 : ∀ zone ∈ l1, in_zoneB x y z zone = false)
    (h2 : ∀ zone ∈ l2, in_zoneB x y z zone = false)
    (hA : in_zoneB x y z A = true)
    (hprev : (A.tp_type, A.slot) ∉ lookupD st.last_player_zones (server_key, player_name) [])
    (hcool : Q.blt (Q.sub now_ts (lookupD st.last_tp_times
        (server_key, player_name, A.tp_type, A.slot) ⟨0, 1⟩)) TP_ZONE_COOLDOWN = false) :
    check_zones_for_player st rand server_key player_name x y z now_ts
      = ([build_teleport_command rand player_name A],
         { st with
           last_tp_times := insertA st.last_tp_times
             (server_key, player_name, A.tp_type, A.slot) now_ts,
           last_player_zones := insertA st.last_player_zones (server_key, player_name)
             [(A.tp_type, A.slot)] }) := by
  unfold check_zones_for_player
  simp only
  rw [hzones, check_zones_go_append, check_zones_go_all_out _ _ _ _ _ _ _ _ _ h1]
  simp only [check_zones_go, hA, if_true]
  simp only [List.not_mem_nil, if_false, if_neg hprev, allowed_to_teleport]
  rw [hcool]
  simp [check_zones_go_all_out _ _ _ _ _ _ _ _ _ h2]

/-- Same single-zone entry, but the per-(player,zone) cooldown is still
running: no command, `_last_tp_times` untouched, membership still updated. -/
theorem check_zones_for_player_enter_blocked (st : ZonesState) (rand : Nat)
    (server_key player_name : String) (x y z now_ts : Q)
    (l1 l2 : List TpZone) (A : TpZone)
    (hzones : st.zones = l1 ++ A :: l2)
    (h1 : ∀ zone ∈ l1, in_zoneB x y z zone = false)
    (h2 : ∀ zone ∈ l2, in_zoneB x y z zone = false)
    (hA : in_zoneB x y z A = true)
    (hprev : (A.tp_type, A.slot) ∉ lookupD st.last_player_zones (server_key, player_name) [])
    (hcool : Q.blt (Q.sub now_ts (lookupD st.last_tp_times
        (server_key, player_name, A.tp_type, A.slot) ⟨0, 1⟩)) TP_ZONE_COOLDOWN = true) :
    check_zones_for_player st rand server_key player_name x y z now_ts
      = ([], { st with
           last_player_zones := insertA st.last_player_zones (server_key, player_name)
             [(A.tp_type, A.slot)] }) := by
  unfold check_zones_for_player
  simp only
  rw [hzones, check_zones_go_append, check_zones_go_all_out _ _ _ _ _ _ _ _ _ h1]
  simp only [check_zones_go, hA, if_true]
  simp only [List.not_mem_nil, if_false, if_neg hprev, allowed_to_teleport]
  rw [hcool]
  simp [check_zones_go_all_out _ _ _ _ _ _ _ _ _ h2]

/-- Same single-zone position, but `A` is already in the stored membership
set: no edge, no command, no cooldown interaction. -/
theorem check_zones_for_player_already_in (st : ZonesState) (rand : Nat)
    (server_key player_name : String) (x y z now_ts : Q)
    (l1 l2 : List TpZone) (A : TpZone)
    (hzones : st.zones = l1 ++ A :: l2)
    (h1 : ∀ zone ∈ l1, in_zoneB x y z zone = false)
    (h2 : ∀ zone ∈ l2, in_zoneB x y z zone = false)
    (hA : in_zoneB x y z A = true)
    (hprev : (A.tp_type, A.slot) ∈ lookupD st.last_player_zones (server_key, player_name) []) :
    check_zones_for_player st rand server_key player_name x y z now_ts
      = ([], { st with
           last_player_zones := insertA st.last_player_zones (server_key, player_name)
             [(A.tp_type, A.slot)] }) := by
  unfold check_zones_for_player
  simp only
  rw [hzones, check_zones_go_append, check_zones_go_all_out _ _ _ _ _ _ _ _ _ h1]
  simp only [check_zones_go, hA, if_true]
  simp only [List.not_mem_nil, if_false, if_pos hprev]
  rw [check_zones_go_all_out _ _ _ _ _ _ _ _ _ h2]
  simp

/-- C1. Edge-triggered zone entry: for any server key and player, a call
sequence whose positions are first outside every zone, then inside exactly
zone `A` for three consecutive calls, then outside again — with the
per-(player,zone) cooldown not blocking the first entry — returns exactly one
teleport command for `A`, on the first inside call; the later inside calls
return no command. -/
theorem C1_zone_entry_edge_triggered
    (st : ZonesState) (server_key player_name : String)
    (l1 l2 : List TpZone) (A : TpZone)
    (ox oy oz ix iy iz : Q) (t0 t1 t2 t3 t4 : Q) (r0 r1 r2 r3 r4 : Nat)
    (hzones : st.zones = l1 ++ A :: l2)
    (hOut : ∀ zone ∈ st.zones, in_zoneB ox oy oz zone = false)
    (hInA : in_zoneB ix iy iz A = true)
    (hIn1 : ∀ zone ∈ l1, in_zoneB ix iy iz zone = false)
    (hIn2 : ∀ zone ∈ l2, in_zoneB ix iy iz zone = false)
    (hcool : Q.blt (Q.sub t1 (lookupD st.last_tp_times
        (server_key, player_name, A.tp_type, A.slot) ⟨0, 1⟩)) TP_ZONE_COOLDOWN = false) :
    (run_zone_checks st server_key player_name
        [((ox, oy, oz), t0, r0), ((ix, iy, iz), t1, r1), ((ix, iy, iz), t2, r2),
         ((ix, iy, iz), t3, r3), ((ox, oy, oz), t4, r4)]).1
      = [[], [build_teleport_command r1 player_name A], [], [], []] := by
  have e0 := check_zones_for_player_all_out st r0 server_key player_name ox oy oz t0 hOut
  have e1 := check_zones_for_player_enter_allowed
    { st with last_player_zones := insertA st.last_player_zones (server_key, player_name) [] }
    r1 server_key player_name ix iy iz t1 l1 l2 A hzones hIn1 hIn2 hInA
    (by simp [lookupD, lookupA_insertA_self]) hcool
  have e2 := check_zones_for_player_already_in
    { st with
      last_tp_times := insertA st.last_tp_times
        (server_key, player_name, A.tp_type, A.slot) t1,
      last_player_zones := insertA
        (insertA st.last_player_zones (server_key, player_name) [])
        (server_key, player_name) [(A.tp_type, A.slot)] }
    r2 server_key player_name ix iy iz t2 l1 l2 A hzones hIn1 hIn2 hInA
    (by simp [lookupD, lookupA_insertA_self])
  have e3 := check_zones_for_player_already_in
    { st with
      last_tp_times := insertA st.last_tp_times
        (server_key, player_name, A.tp_type, A.slot) t1,
      last_player_zones := insertA (insertA
        (insertA st.last_player_zones (server_key, player_name) [])
        (server_key, player_name) [(A.tp_type, A.slot)])
        (server_key, player_name) [(A.tp_type, A.slot)] }
    r3 server_key player_name ix iy iz t3 l1 l2 A hzones hIn1 hIn2 hInA
    (by simp [lookupD, lookupA_insertA_self])
  have e4 := check_zones_for_player_all_out
    { st with
      last_tp_times := insertA st.last_tp_times
        (server_key, player_name, A.tp_type, A.slot) t1,
      last_player_zones := insertA (insertA (insertA
        (insertA st.last_player_zones (server_key, player_name) [])
        (server_key, player_name) [(A.tp_type, A.slot)])
        (server_key, player_name) [(A.tp_type, A.slot)])
        (server_key, player_name) [(A.tp_type, A.slot)] }
    r4 server_key player_name ox oy oz t4 hOut
  simp [run_zone_checks, e0, e1, e2, e3, e4]

/-- Concrete zone fixtures for the witnesses: `zoneA` at the origin with one
spawn point, `zoneB` far away so the test positions are never inside it. -/
def zoneA : TpZone :=
  { tp_type := "LAUNCHSITE", slot := 1,
    zone_x := ⟨0, 1⟩, zone_y := ⟨0, 1⟩, zone_z := ⟨0, 1⟩,
    spawn_points := [(⟨10, 1⟩, ⟨20, 1⟩, ⟨30, 1⟩)] }

def zoneB : TpZone :=
  { tp_type := "AIRFIELD", slot := 2,
    zone_x := ⟨1000, 1⟩, zone_y := ⟨0, 1⟩, zone_z := ⟨0, 1⟩ }

def zonesFixture : ZonesState :=
  { zones := [zoneA, zoneB], last_tp_times := [], last_player_zones := [] }

/-- C1, witness: out, in, in, in, out for a player on "s1" against the two
configured zones; exactly one command, on the first inside call. -/
theorem C1_witness :
    (zonesFixture.zones = [] ++ zoneA :: [zoneB]
      ∧ (∀ zone ∈ zonesFixture.zones, in_zoneB ⟨100, 1⟩ ⟨0, 1⟩ ⟨0, 1⟩ zone = false)
      ∧ in_zoneB ⟨1, 1⟩ ⟨0, 1⟩ ⟨0, 1⟩ zoneA = true
      ∧ (∀ zone ∈ [zoneB], in_zoneB ⟨1, 1⟩ ⟨0, 1⟩ ⟨0, 1⟩ zone = false)
      ∧ Q.blt (Q.sub ⟨11, 1⟩ (lookupD zonesFixture.last_tp_times
          ("s1", "Player One", zoneA.tp_type, zoneA.slot) ⟨0, 1⟩)) TP_ZONE_COOLDOWN = false)
    ∧ (run_zone_checks zonesFixture "s1" "Player One"
        [((⟨100, 1⟩, ⟨0, 1⟩, ⟨0, 1⟩), ⟨10, 1⟩, 0), ((⟨1, 1⟩, ⟨0, 1⟩, ⟨0, 1⟩), ⟨11, 1⟩, 1),
         ((⟨1, 1⟩, ⟨0, 1⟩, ⟨0, 1⟩), ⟨12, 1⟩, 2), ((⟨1, 1⟩, ⟨0, 1⟩, ⟨0, 1⟩), ⟨13, 1⟩, 3),
         ((⟨100, 1⟩, ⟨0, 1⟩, ⟨0, 1⟩), ⟨14, 1⟩, 4)]).1
      = [[], [build_teleport_command 1 "Player One" zoneA], [], [], []] :=
  ⟨⟨by decide, by decide, by decide, by decide, by decide⟩,
   C1_zone_entry_edge_triggered zonesFixture "s1" "Player One" [] [zoneB] zoneA
     ⟨100, 1⟩ ⟨0, 1⟩ ⟨0, 1⟩ ⟨1, 1⟩ ⟨0, 1⟩ ⟨0, 1⟩
     ⟨10, 1⟩ ⟨11, 1⟩ ⟨12, 1⟩ ⟨13, 1⟩ ⟨14, 1⟩ 0 1 2 3 4
     (by decide) (by decide) (by decide) (by decide) (by decide) (by decide)⟩

/-- C4. Per-(player,zone) teleport cooldown: after a first entry teleport at
time `t1`, leaving and re-entering the same zone at time `t3` with
`t3 - t1 < TP_ZONE_COOLDOWN` produces no new command, and — because the
blocked attempt does not restamp the cooldown — leaving and re-entering again
at time `t5` with `t5 - t1` no longer below the cooldown produces exactly one
more command. -/
theorem C4_cooldown_blocks_then_allows
    (st : ZonesState) (server_key player_name : String)
    (l1 l2 : List TpZone) (A : TpZone)
    (ox oy oz ix iy iz : Q) (t0 t1 t2 t3 t4 t5 : Q) (r0 r1 r2 r3 r4 r5 : Nat)
    (hzones : st.zones = l1 ++ A :: l2)
    (hOut : ∀ zone ∈ st.zones, in_zoneB ox oy oz zone = false)
    (hInA : in_zoneB ix iy iz A = true)
    (hIn1 : ∀ zone ∈ l1, in_zoneB ix iy iz zone = false)
    (hIn2 : ∀ zone ∈ l2, in_zoneB ix iy iz zone = false)
    (hcool : Q.blt (Q.sub t1 (lookupD st.last_tp_times
        (server_key, player_name, A.tp_type, A.slot) ⟨0, 1⟩)) TP_ZONE_COOLDOWN = false)
    (hblock : Q.blt (Q.sub t3 t1) TP_ZONE_COOLDOWN = true)
    (hallow : Q.blt (Q.sub t5 t1) TP_ZONE_COOLDOWN = false) :
    (run_zone_checks st server_key player_name
        [((ox, oy, oz), t0, r0), ((ix, iy, iz), t1, r1), ((ox, oy, oz), t2, r2),
         ((ix, iy, iz), t3, r3), ((ox, oy, oz), t4, r4), ((ix, iy, iz), t5, r5)]).1
      = [[], [build_teleport_command r1 player_name A], [], [],
         [], [build_teleport_command r5 player_name A]] := by
  have hkey : lookupD (insertA st.last_tp_times
      (server_key, player_name, A.tp_type, A.slot) t1)
      (server_key, player_name, A.tp_type, A.slot) (⟨0, 1⟩ : Q) = t1 := by
    simp [lookupD, lookupA_insertA_self]
  have e0 := check_zones_for_player_all_out st r0 server_key player_name ox oy oz t0 hOut
  have e1 := check_zones_for_player_enter_allowed
    { st with last_player_zones := insertA st.last_player_zones (server_key, player_name) [] }
    r1 server_key player_name ix iy iz t1 l1 l2 A hzones hIn1 hIn2 hInA
    (by simp [lookupD, lookupA_insertA_self]) hcool
  have e2 := check_zones_for_player_all_out
    { st with
      last_tp_times := insertA st.last_tp_times
        (server_key, player_name, A.tp_type, A.slot) t1,
      last_player_zones := insertA
        (insertA st.last_player_zones (server_key, player_name) [])
        (server_key, player_name) [(A.tp_type, A.slot)] }
    r2 server_key player_name ox oy oz t2 hOut
  have e3 := check_zones_for_player_enter_blocked
    { st with
      last_tp_times := insertA st.last_tp_times
        (server_key, player_name, A.tp_type, A.slot) t1,
      last_player_zones := insertA (insertA
        (insertA st.last_player_zones (server_key, player_name) [])
        (server_key, player_name) [(A.tp_type, A.slot)])
        (server_key, player_name) [] }
    r3 server_key player_name ix iy iz t3 l1 l2 A hzones hIn1 hIn2 hInA
    (by simp [lookupD, lookupA_insertA_self])
    (by rw [show lookupD (insertA st.last_tp_times
        (server_key, player_name, A.tp_type, A.slot) t1)
        (server_key, player_name, A.tp_type, A.slot) (⟨0, 1⟩ : Q) = t1 from hkey]
        exact hblock)
  have e4 := check_zones_for_player_all_out
    { st with
      last_tp_times := insertA st.last_tp_times
        (server_key, player_name, A.tp_type, A.slot) t1,
      last_player_zones := insertA (insertA (insertA
        (insertA st.last_player_zones (server_key, player_name) [])
        (server_key, player_name) [(A.tp_type, A.slot)])
        (server_key, player_name) [])
        (server_key, player_name) [(A.tp_type, A.slot)] }
    r4 server_key player_name ox oy oz t4 hOut
  have e5 := check_zones_for_player_enter_allowed
    { st with
      last_tp_times := insertA st.last_tp_times
        (server_key, player_name, A.tp_type, A.slot) t1,
      last_player_zones := insertA (insertA (insertA (insertA
        (insertA st.last_player_zones (server_key, player_name) [])
        (server_key, player_name) [(A.tp_type, A.slot)])
        (server_key, player_name) [])
        (server_key, player_name) [(A.tp_type, A.slot)])
        (server_key, player_name) [] }
    r5 server_key player_name ix iy iz t5 l1 l2 A hzones hIn1 hIn2 hInA
    (by simp [lookupD, lookupA_insertA_self])
    (by rw [show lookupD (insertA st.last_tp_times
        (server_key, player_name, A.tp_type, A.slot) t1)
        (server_key, player_name, A.tp_type, A.slot) (⟨0, 1⟩ : Q) = t1 from hkey]
        exact hallow)
  simp [run_zone_checks, e0, e1, e2, e3, e4, e5]

/-- C4, witness: entry at t=11 teleports; re-entry at t=13 (2 s later, inside
the 3 s cooldown) is blocked; re-entry at t=15 (4 s after the teleport)
teleports once more. -/
theorem C4_witness :
    (Q.blt (Q.sub ⟨13, 1⟩ ⟨11, 1⟩) TP_ZONE_COOLDOWN = true
      ∧ Q.blt (Q.sub ⟨15, 1⟩ ⟨11, 1⟩) TP_ZONE_COOLDOWN = false)
    ∧ (run_zone_checks zonesFixture "s1" "Player One"
        [((⟨100, 1⟩, ⟨0, 1⟩, ⟨0, 1⟩), ⟨10, 1⟩, 0), ((⟨1, 1⟩, ⟨0, 1⟩, ⟨0, 1⟩), ⟨11, 1⟩, 1),
         ((⟨100, 1⟩, ⟨0, 1⟩, ⟨0, 1⟩), ⟨12, 1⟩, 2), ((⟨1, 1⟩, ⟨0, 1⟩, ⟨0, 1⟩), ⟨13, 1⟩, 3),
         ((⟨100, 1⟩, ⟨0, 1⟩, ⟨0, 1⟩), ⟨14, 1⟩, 4), ((⟨1, 1⟩, ⟨0, 1⟩, ⟨0, 1⟩), ⟨15, 1⟩, 5)]).1
      = [[], [build_teleport_command 1 "Player One" zoneA], [], [],
         [], [build_teleport_command 5 "Player One" zoneA]] :=
  ⟨⟨by decide, by decide⟩,
   C4_cooldown_blocks_then_allows zonesFixture "s1" "Player One" [] [zoneB] zoneA
     ⟨100, 1⟩ ⟨0, 1⟩ ⟨0, 1⟩ ⟨1, 1⟩ ⟨0, 1⟩ ⟨0, 1⟩
     ⟨10, 1⟩ ⟨11, 1⟩ ⟨12, 1⟩ ⟨13, 1⟩ ⟨14, 1⟩ ⟨15, 1⟩ 0 1 2 3 4 5
     (by decide) (by decide) (by decide) (by decide) (by decide) (by decide)
     (by decide) (by decide)⟩

/-! ## starz_printpos/tp_tracker.py — the printpos coordinate pattern

`PRINTPOS_COORD_RE` (src/starz_printpos/tp_tracker.py lines 27-29) is the
pattern for one decimal triple in parentheses; `coordSearch` below is its
`search`: try a full match at every start position, left to right. For this
pattern greedy matching never needs backtracking (digits, the dot, the comma
and whitespace are disjoint character classes), so the direct parser is
equivalent to the regex. -/

def digVal (c : Char) : Nat := c.toNat - 48

/-- Consume a maximal run of digits, returning value, digit count, rest. -/
def takeDigits : List Char → Nat → Nat → Nat × Nat × List Char
  | [], acc, cnt => (acc, cnt, [])
  | c :: rest, acc, cnt =>
    if c.isDigit then takeDigits rest (acc * 10 + digVal c) (cnt + 1)
    else (acc, cnt, c :: rest)

/-- Parse one number of the shape `-?\d+\.\d+` into an exact fraction. -/
def parseNum (cs : List Char) : Option (Q × List Char) :=
  let sr : Bool × List Char :=
    match cs with
    | '-' :: rest => (true, rest)
    | _ => (false, cs)
  match takeDigits sr.2 0 0 with
  | (_, 0, _) => none
  | (ipart, _, cs2) =>
    match cs2 with
    | '.' :: cs3 =>
      match takeDigits cs3 0 0 with
      | (_, 0, _) => none
      | (fpart, fcnt, cs4) =>
        let den : Int := (10 : Int) ^ fcnt
        let n : Int := (ipart : Int) * den + (fpart : Int)
        some (⟨if sr.1 then -n else n, den⟩, cs4)
    | _ => none

/-- Zero or more whitespace characters (`\s*`). -/
def skipWs : List Char → List Char
  | [] => []
  | c :: rest =>
    if c = ' ' ∨ c = '\t' ∨ c = '\n' ∨ c = '\r' then skipWs rest else c :: rest

/-- Match the full coordinate pattern starting at the head of the input. -/
def tryMatchAt (cs : List Char) : Option (Q × Q × Q) :=
  match cs with
  | '(' :: cs1 =>
    (match parseNum cs1 with
     | none => none
     | some (x, cs2) =>
       match cs2 with
       | ',' :: cs3 =>
         (match parseNum (skipWs cs3) with
          | none => none
          | some (y, cs4) =>
            match cs4 with
            | ',' :: cs5 =>
              (match parseNum (skipWs cs5) with
               | none => none
               | some (z, cs6) =>
                 match cs6 with
                 | ')' :: _ => some (x, y, z)
                 | _ => none)
            | _ => none)
       | _ => none)
  | _ => none

def searchCoords : List Char → Option (Q × Q × Q)
  | [] => none
  | c :: rest =>
    match tryMatchAt (c :: rest) with
    | some r => some r
    | none => searchCoords rest

/-- `PRINTPOS_COORD_RE.search` on a reply text. -/
def coordSearch (s : String) : Option (Q × Q × Q) := searchCoords s.data

/-! ## bot.py — the RCON adapter handed to the printpos system -/

/-- Embedding of `run_rcon_command` (src/rcon_web.py lines 206-228). The
function is annotated `-> None` and indeed returns a value on no path: it
bails out when the master switch is off, bails out on an unknown server key,
and after `send_command` it only prints, both on success and on failure.
`send_result` is what the underlying `client.send_command` call would do. -/
def run_rcon_command (rcon_enabled : Bool) (known_key : Bool)
    (send_result : Except String Frame) : Option Frame :=
  if !rcon_enabled then none
  else if !known_key then none
  else
    match send_result with
    | .ok _ => none
    | .error _ => none

/-- Embedding of the adapter `tp_send_rcon` (src/bot.py lines 223-248): call
`run_rcon_command`; if the result is a dict, extract its text field; else
return `str(resp or "")`, which for `None` is the empty string. -/
def tp_send_rcon (rcon_enabled : Bool) (known_key : Bool)
    (send_result : Except String Frame) : String :=
  match run_rcon_command rcon_enabled known_key send_result with
  | some d => d.message
  | none => ""

/-- C10. For every master-switch setting, server-key lookup outcome and
underlying send outcome, `run_rcon_command` returns `None`; hence the adapter
`tp_send_rcon` returns the empty string on every path, and a position
scheduler using it as its send function can never parse coordinates from a
reply, because the coordinate pattern never matches the empty string. -/
theorem C10_adapter_always_empty (rcon_enabled known_key : Bool)
    (send_result : Except String Frame) :
    run_rcon_command rcon_enabled known_key send_result = none
    ∧ tp_send_rcon rcon_enabled known_key send_result = ""
    ∧ coordSearch (tp_send_rcon rcon_enabled known_key send_result) = none := by
  have h1 : run_rcon_command rcon_enabled known_key send_result = none := by
    unfold run_rcon_command
    cases rcon_enabled <;> cases known_key <;> cases send_result <;> rfl
  have h2 : tp_send_rcon rcon_enabled known_key send_result = "" := by
    unfold tp_send_rcon
    rw [h1]
  refine ⟨h1, h2, ?_⟩
  rw [h2]
  rfl

/-! ## starz_printpos/tp_tracker.py — scheduler state -/

/-- Per-server counters of `_stats` (src/starz_printpos/tp_tracker.py
lines 63-73), with the defaultdict defaults. -/
structure PStats where
  last_log_ts : Q := ⟨0, 1⟩
  sent : Nat := 0
  coords : Nat := 0
  no_coords : Nat := 0
  far : Nat := 0
  tp : Nat := 0
  err : Nat := 0
deriving DecidableEq, Repr

/-- Module-level mutable state of tp_tracker.py (lines 35-73): the READY
rotation (`_poll_queues`/`_ready_set`), cooldowns, the EXPIRED fast lane, the
SCAN lane, the near-confirmed set, the empty-server cooldown map, per-server
stats — plus the tp_zones module state the zone checks read and write.
defaultdict access is modelled by `lookupD _ _ []`. -/
structure TrackerState where
  poll_queues : List (String × List String)
  ready_set : List (String × List String)
  cooldown_until : List ((String × String) × Q)
  expired_queues : List (String × List String)
  expired_set : List (String × List String)
  scan_queues : List (String × List String)
  scan_set : List (String × List String)
  near_set : List (String × List String)
  empty_server_until : List (String × Q)
  zones : ZonesState
  stats : List (String × PStats)
deriving DecidableEq, Repr

/-- Update one server's stats record (defaultdict semantics). -/
def setStats (st : TrackerState) (server_key : String) (f : PStats → PStats) : TrackerState :=
  { st with stats := insertA st.stats server_key (f (lookupD st.stats server_key {})) }

/-- Embedding of `_min_dist2_to_any_zone` (src/starz_printpos/tp_tracker.py
lines 104-116): smallest squared distance to any configured zone center, or
`none` when no zones are configured. The per-zone formula is identical to the
one in `check_zones_for_player`, shared here as `dist2`. -/
def min_dist2_to_any_zone (zones : List TpZone) (x y z : Q) : Option Q :=
  zones.foldl
    (fun best zone =>
      let d2 := dist2 x y z zone
      match best with
      | none => some d2
      | some b => if Q.blt d2 b then some d2 else some b)
    none

/-- Embedding of `_log_status_if_due` (src/starz_printpos/tp_tracker.py
lines 170-191): rate-limits the status print; the only state effect is
stamping `last_log_ts` when due. -/
def log_status_if_due (st : TrackerState) (server_key : String) (now_ts : Q) : TrackerState :=
  let s := lookupD st.stats server_key {}
  if Q.blt (Q.sub now_ts s.last_log_ts) PRINTPOS_STATUS_LOG_SECONDS then st
  else { st with stats := insertA st.stats server_key { s with last_log_ts := now_ts } }

/-- The near path of `process_printpos_response` (src/starz_printpos/
tp_tracker.py lines 287-298): mark the player near, run the zone check
(which always updates the tp_zones state), and if it produced commands,
count one tp and send them. Returns the new state and the commands sent. -/
def process_near_path (st1 : TrackerState) (now : Q) (rand : Nat)
    (server_key player_name : String) (x y z : Q) : TrackerState × List String :=
  let ns := lookupD st1.near_set server_key []
  let st2 := { st1 with near_set := (insertA st1.near_set server_key
      (if player_name ∈ ns then ns else ns ++ [player_name])) }
  let r := check_zones_for_player st2.zones rand server_key player_name x y z now
  let st3 := { st2 with zones := r.2 }
  if r.1 = [] then (st3, [])
  else (setStats st3 server_key (fun s => { s with tp := s.tp + 1 }), r.1)

/-- Embedding of `process_printpos_response` (src/starz_printpos/
tp_tracker.py lines 256-298, the later definition, which is the live one):
parse the reply; on no coordinates count a miss; if the position is farther
than `FAR_DISTANCE_METERS` from every zone center, stamp the player's
cooldown with `now + FAR_SKIP_SECONDS`, count `far`, drop them from the near
set and do no zone check; otherwise run the near path. `now` is `time.time()`
and `rand` the spawn-choice oracle; the returned list holds the commands
passed to `_send_rcon`. -/
def process_printpos_response (enabled has_send : Bool) (st : TrackerState)
    (now : Q) (rand : Nat) (server_key player_name resp_text : String) :
    TrackerState × List String :=
  if !enabled || !has_send then (st, [])
  else
    match coordSearch resp_text with
    | none =>
      let st1 := setStats st server_key (fun s => { s with no_coords := s.no_coords + 1 })
      (log_status_if_due st1 server_key now, [])
    | some (x, y, z) =>
      let st1 := setStats st server_key (fun s => { s with coords := s.coords + 1 })
      match min_dist2_to_any_zone st1.zones.zones x y z with
      | some d2 =>
        if Q.blt (Q.mul FAR_DISTANCE_METERS FAR_DISTANCE_METERS) d2 then
          let st2 := { st1 with cooldown_until := (insertA st1.cooldown_until
              (server_key, player_name) (Q.add now FAR_SKIP_SECONDS)) }
          let st3 := setStats st2 server_key (fun s => { s with far := s.far + 1 })
          ({ st3 with near_set := (insertA st3.near_set server_key
              ((lookupD st3.near_set server_key []).filter (fun n => n ≠ player_name))) },
           [])
        else process_near_path st1 now rand server_key player_name x y z
      | none => process_near_path st1 now rand server_key player_name x y z

/-- One entry of the `_wake_expired_for_server` loop (src/starz_printpos/
tp_tracker.py lines 119-129): for an entry of this server whose cooldown has
expired (`now_ts >= until`), pop the cooldown entry and, unless the player is
already in the expired or ready set, append them to the expired fast lane. -/
def wake_step (server_key : String) (now_ts : Q) (acc : TrackerState)
    (entry : (String × String) × Q) : TrackerState :=
  if entry.1.1 ≠ server_key then acc
  else if Q.ble entry.2 now_ts then
    let acc1 := { acc with cooldown_until := eraseA acc.cooldown_until entry.1 }
    if entry.1.2 ∉ lookupD acc1.expired_set server_key []
        ∧ entry.1.2 ∉ lookupD acc1.ready_set server_key [] then
      { acc1 with
        expired_queues := insertA acc1.expired_queues server_key
          (lookupD acc1.expired_queues server_key [] ++ [entry.1.2]),
        expired_set := insertA acc1.expired_set server_key
          (lookupD acc1.expired_set server_key [] ++ [entry.1.2]) }
    else acc1
  else acc

/-- Embedding of `_wake_expired_for_server`: fold the loop body over the
snapshot `list(_cooldown_until.items())` taken at entry. -/
def wake_expired_for_server (st : TrackerState) (server_key : String) (now_ts : Q) :
    TrackerState :=
  st.cooldown_until.foldl (wake_step server_key now_ts) st

/-- Pop up to `count` players off one queue (stopping at the batch `limit`),
discarding each from its companion set — the loop shape used by every stage
of `_pick_players`. The stage-4 while loop is this with `count` the queue
length. -/
def takeUpTo (limit : Nat) : Nat → List String → List String → List String →
    List String × List String × List String
  | 0, picked, q, s => (picked, q, s)
  | n + 1, picked, q, s =>
    if picked.length ≥ limit then (picked, q, s)
    else
      match q with
      | [] => (picked, [], s)
      | p :: rest => takeUpTo limit n (picked ++ [p]) rest (s.filter (fun e => e ≠ p))

/-- Embedding of `_pick_players` (src/starz_printpos/tp_tracker.py
lines 131-164): one from the expired fast lane, up to two from ready, one
from scan, then fill the rest of the batch from ready; queues and sets are
written back. -/
def pick_players (st : TrackerState) (server_key : String) :
    List String × TrackerState :=
  let s1 := takeUpTo PRINTPOS_BATCH_SIZE 1 []
    (lookupD st.expired_queues server_key []) (lookupD st.expired_set server_key [])
  let s2 := takeUpTo PRINTPOS_BATCH_SIZE 2 s1.1
    (lookupD st.poll_queues server_key []) (lookupD st.ready_set server_key [])
  let s3 := takeUpTo PRINTPOS_BATCH_SIZE 1 s2.1
    (lookupD st.scan_queues server_key []) (lookupD st.scan_set server_key [])
  let s4 := takeUpTo PRINTPOS_BATCH_SIZE s2.2.1.length s3.1 s2.2.1 s2.2.2
  (s4.1,
   { st with
     expired_queues := insertA st.expired_queues server_key s1.2.1,
     expired_set := insertA st.expired_set server_key s1.2.2,
     poll_queues := insertA st.poll_queues server_key s4.2.1,
     ready_set := insertA st.ready_set server_key s4.2.2,
     scan_queues := insertA st.scan_queues server_key s3.2.1,
     scan_set := insertA st.scan_set server_key s3.2.2 })

/-- The per-player body of `_position_poll_loop` (src/starz_printpos/
tp_tracker.py lines 322-343): send `server.printpos "<name>"` (logged as the
head of the returned command list), count it, process a non-empty reply, then
re-queue the player — unless on cooldown — into READY when near-confirmed,
else into SCAN. `resp_of` is the reply the send function returns, `rand` the
spawn-choice oracle. -/
def poll_player (st : TrackerState) (server_key pname : String) (now : Q)
    (resp_of : String → String → String) (rand : Nat) : TrackerState × List String :=
  let query := "server.printpos \"" ++ pname ++ "\""
  let st1 := setStats st server_key (fun s => { s with sent := s.sent + 1 })
  let resp := resp_of server_key pname
  let r :=
    if resp ≠ "" then process_printpos_response true true st1 now rand server_key pname resp
    else (st1, [])
  let st2 := r.1
  let st3 :=
    if lookupA st2.cooldown_until (server_key, pname) = none then
      if pname ∈ lookupD st2.near_set server_key [] then
        if pname ∉ lookupD st2.ready_set server_key []
            ∧ pname ∉ lookupD st2.expired_set server_key [] then
          { st2 with
            poll_queues := (insertA st2.poll_queues server_key
              (lookupD st2.poll_queues server_key [] ++ [pname])),
            ready_set := (insertA st2.ready_set server_key
              (lookupD st2.ready_set server_key [] ++ [pname])) }
        else st2
      else
        if pname ∉ lookupD st2.scan_set server_key [] then
          { st2 with
            scan_queues := (insertA st2.scan_queues server_key
              (lookupD st2.scan_queues server_key [] ++ [pname])),
            scan_set := (insertA st2.scan_set server_key
              (lookupD st2.scan_set server_key [] ++ [pname])) }
        else st2
    else st2
  (st3, query :: r.2)

/-- The per-server body of `_position_poll_loop` (src/starz_printpos/
tp_tracker.py lines 313-348): skip the server outright while its empty-server
cooldown is in the future; otherwise wake expired cooldowns, pick a batch and
poll each picked player. Returns the new state and every command sent for
this server (position queries and teleports, in order). -/
def poll_server_tick (st : TrackerState) (server_key : String) (now : Q)
    (resp_of : String → String → String) (rand_of : String → Nat) :
    TrackerState × List String :=
  if Q.blt now (lookupD st.empty_server_until server_key ⟨0, 1⟩) then (st, [])
  else
    let st1 := wake_expired_for_server st server_key now
    let p := pick_players st1 server_key
    if p.1 = [] then (p.2, [])
    else
      let r := p.1.foldl
        (fun (acc : TrackerState × List String) pname =>
          let rr := poll_player acc.1 server_key pname now resp_of (rand_of pname)
          (rr.1, acc.2 ++ rr.2))
        (p.2, [])
      (log_status_if_due r.1 server_key now, r.2)

/-- One tick of `_position_poll_loop` (src/starz_printpos/tp_tracker.py
lines 306-348): nothing when disabled or without a send function; otherwise
the per-server body over the snapshot `list(_poll_queues.keys())`. -/
def position_poll_tick (enabled has_send : Bool) (st : TrackerState) (now : Q)
    (resp_of : String → String → String) (rand_of : String → Nat) :
    TrackerState × List String :=
  if !enabled || !has_send then (st, [])
  else
    (st.poll_queues.map (fun kv => kv.1)).foldl
      (fun (acc : TrackerState × List String) server_key =>
        let r := poll_server_tick acc.1 server_key now resp_of rand_of
        (r.1, acc.2 ++ r.2))
      (st, [])

/-- Modelled from the spec: `update_connected_players` — the playerlist
refresh the position scheduler depends on. bot.py imports it from
`starz_printpos` and calls it with each server's fresh name list (src/bot.py
lines 307, 836, 1893), but its definition is not under src/. Per the spec: it
replaces the server's connected-player pool with `names`; "If a server's
connected-player pool becomes empty, stop scheduling that server entirely for
a fixed cooldown window (e.g. 5 minutes) rather than polling nobody every
tick" — so an empty `names` clears the server's lanes and stamps
`_empty_server_until[server] = now + EMPTY_SERVER_COOLDOWN_SECONDS`; a
non-empty list drops departed players from every lane and cooldown and routes
genuinely new players into the SCAN lane (near-confirmed players re-enter
READY per the rebuild comment on src/starz_printpos/tp_tracker.py line 283). -/
def update_connected_players (st : TrackerState) (server_key : String)
    (names : List String) (now : Q) : TrackerState :=
  if names = [] then
    { st with
      empty_server_until := (insertA st.empty_server_until server_key
        (Q.add now EMPTY_SERVER_COOLDOWN_SECONDS)),
      poll_queues := insertA st.poll_queues server_key [],
      ready_set := insertA st.ready_set server_key [],
      expired_queues := insertA st.expired_queues server_key [],
      expired_set := insertA st.expired_set server_key [],
      scan_queues := insertA st.scan_queues server_key [],
      scan_set := insertA st.scan_set server_key [],
      cooldown_until := (st.cooldown_until.filter
        (fun e => e.1.1 ≠ server_key)) }
  else
    let known := lookupD st.poll_queues server_key [] ++
      lookupD st.expired_queues server_key [] ++
      lookupD st.scan_queues server_key [] ++
      (st.cooldown_until.filterMap
        (fun e => if e.1.1 = server_key then some e.1.2 else none))
    let fresh := names.filter (fun n => n ∉ known)
    { st with
      poll_queues := (insertA st.poll_queues server_key
        ((lookupD st.poll_queues server_key []).filter (fun n => n ∈ names))),
      ready_set := (insertA st.ready_set server_key
        ((lookupD st.ready_set server_key []).filter (fun n => n ∈ names))),
      expired_queues := (insertA st.expired_queues server_key
        ((lookupD st.expired_queues server_key []).filter (fun n => n ∈ names))),
      expired_set := (insertA st.expired_set server_key
        ((lookupD st.expired_set server_key []).filter (fun n => n ∈ names))),
      scan_queues := (insertA st.scan_queues server_key
        ((lookupD st.scan_queues server_key []).filter (fun n => n ∈ names) ++ fresh)),
      scan_set := (insertA st.scan_set server_key
        ((lookupD st.scan_set server_key []).filter (fun n => n ∈ names) ++ fresh)),
      cooldown_until := (st.cooldown_until.filter
        (fun e => e.1.1 ≠ server_key ∨ e.1.2 ∈ names)) }

/-! ## Helper lemmas for the batch picker -/

theorem takeUpTo_length_le (limit : Nat) :
    ∀ (n : Nat) (picked q s : List String), picked.length ≤ limit →
      (takeUpTo limit n picked q s).1.length ≤ limit := by
  intro n
  induction n with
  | zero => intro picked q s h; exact h
  | succ m ih =>
    intro picked q s h
    by_cases hl : picked.length ≥ limit
    · simp only [takeUpTo]
      rw [if_pos hl]
      exact h
    · simp only [takeUpTo]
      rw [if_neg hl]
      cases q with
      | nil => exact h
      | cons p rest =>
        apply ih
        simp only [List.length_append, List.length_cons, List.length_nil]
        omega

theorem takeUpTo_picked_append (limit : Nat) :
    ∀ (n : Nat) (picked q s : List String),
      ∃ new, (takeUpTo limit n picked q s).1 = picked ++ new ∧ ∀ x ∈ new, x ∈ q := by
  intro n
  induction n with
  | zero =>
    intro picked q s
    exact ⟨[], by simp [takeUpTo]⟩
  | succ m ih =>
    intro picked q s
    by_cases hl : picked.length ≥ limit
    · exact ⟨[], by simp [takeUpTo, if_pos hl]⟩
    · simp only [takeUpTo]
      rw [if_neg hl]
      cases q with
      | nil => exact ⟨[], by simp⟩
      | cons p rest =>
        obtain ⟨new, hnew, hmem⟩ := ih (picked ++ [p]) rest (s.filter (fun e => e ≠ p))
        refine ⟨p :: new, ?_, ?_⟩
        · rw [hnew]; simp
        · intro x hx
          simp only [List.mem_cons] at hx
          rcases hx with rfl | hx
          · simp
          · simp only [List.mem_cons]
            exact Or.inr (hmem x hx)

theorem takeUpTo_queue_sub (limit : Nat) :
    ∀ (n : Nat) (picked q s : List String) (x : String),
      x ∈ (takeUpTo limit n picked q s).2.1 → x ∈ q := by
  intro n
  induction n with
  | zero => intro picked q s x hx; exact hx
  | succ m ih =>
    intro picked q s x hx
    by_cases hl : picked.length ≥ limit
    · simp only [takeUpTo] at hx
      rw [if_pos hl] at hx
      exact hx
    · simp only [takeUpTo] at hx
      rw [if_neg hl] at hx
      cases q with
      | nil => simp at hx
      | cons p rest =>
        exact List.mem_cons_of_mem p (ih _ _ _ x hx)

/-- Everyone picked comes out of one of the three lanes of this server. -/
theorem pick_players_mem (st : TrackerState) (server_key : String) (p : String)
    (hp : p ∈ (pick_players st server_key).1) :
    p ∈ lookupD st.expired_queues server_key []
    ∨ p ∈ lookupD st.poll_queues server_key []
    ∨ p ∈ lookupD st.scan_queues server_key [] := by
  unfold pick_players at hp
  simp only at hp
  obtain ⟨n1, he1, hm1⟩ := takeUpTo_picked_append PRINTPOS_BATCH_SIZE 1 []
    (lookupD st.expired_queues server_key []) (lookupD st.expired_set server_key [])
  obtain ⟨n2, he2, hm2⟩ := takeUpTo_picked_append PRINTPOS_BATCH_SIZE 2
    (takeUpTo PRINTPOS_BATCH_SIZE 1 []
      (lookupD st.expired_queues server_key []) (lookupD st.expired_set server_key [])).1
    (lookupD st.poll_queues server_key []) (lookupD st.ready_set server_key [])
  obtain ⟨n3, he3, hm3⟩ := takeUpTo_picked_append PRINTPOS_BATCH_SIZE 1
    (takeUpTo PRINTPOS_BATCH_SIZE 2
      (takeUpTo PRINTPOS_BATCH_SIZE 1 []
        (lookupD st.expired_queues server_key []) (lookupD st.expired_set server_key [])).1
      (lookupD st.poll_queues server_key []) (lookupD st.ready_set server_key [])).1
    (lookupD st.scan_queues server_key []) (lookupD st.scan_set server_key [])
  set s1 := takeUpTo PRINTPOS_BATCH_SIZE 1 []
    (lookupD st.expired_queues server_key []) (lookupD st.expired_set server_key []) with hs1
  set s2 := takeUpTo PRINTPOS_BATCH_SIZE 2 s1.1
    (lookupD st.poll_queues server_key []) (lookupD st.ready_set server_key []) with hs2
  set s3 := takeUpTo PRINTPOS_BATCH_SIZE 1 s2.1
    (lookupD st.scan_queues server_key []) (lookupD st.scan_set server_key []) with hs3
  obtain ⟨n4, he4, hm4⟩ := takeUpTo_picked_append PRINTPOS_BATCH_SIZE s2.2.1.length
    s3.1 s2.2.1 s2.2.2
  rw [he4, he3, he2, he1] at hp
  simp only [List.nil_append, List.mem_append] at hp
  rcases hp with ((hx | hx) | hx) | hx
  · exact Or.inl (hm1 p hx)
  · exact Or.inr (Or.inl (hm2 p hx))
  · exact Or.inr (Or.inr (hm3 p hx))
  · have : p ∈ s2.2.1 := hm4 p hx
    exact Or.inr (Or.inl (takeUpTo_queue_sub PRINTPOS_BATCH_SIZE 2 s1.1 _ _ p this))

/-- C9. `_pick_players` returns at most `PRINTPOS_BATCH_SIZE` (4) players;
whenever the cooldown-expired fast lane is non-empty its front player is
picked first (the batch starts with them), and every other picked player
comes from the rotating ready or scan queues. -/
theorem C9_batch_bound_and_expired_priority (st : TrackerState) (server_key : String) :
    (pick_players st server_key).1.length ≤ PRINTPOS_BATCH_SIZE
    ∧ (∀ (p : String) (t : List String),
        lookupD st.expired_queues server_key [] = p :: t →
        ∃ rest, (pick_players st server_key).1 = p :: rest
          ∧ ∀ q ∈ rest,
              q ∈ lookupD st.poll_queues server_key []
              ∨ q ∈ lookupD st.scan_queues server_key []) := by
  constructor
  · unfold pick_players
    simp only
    apply takeUpTo_length_le
    apply takeUpTo_length_le
    apply takeUpTo_length_le
    apply takeUpTo_length_le
    simp [PRINTPOS_BATCH_SIZE]
  · intro p t hq
    unfold pick_players
    simp only
    rw [hq]
    have h1 : takeUpTo PRINTPOS_BATCH_SIZE 1 [] (p :: t)
        (lookupD st.expired_set server_key [])
        = ([p], t, (lookupD st.expired_set server_key []).filter (fun e => e ≠ p)) := by
      simp [takeUpTo, PRINTPOS_BATCH_SIZE]
    rw [h1]
    obtain ⟨n2, he2, hm2⟩ := takeUpTo_picked_append PRINTPOS_BATCH_SIZE 2 [p]
      (lookupD st.poll_queues server_key []) (lookupD st.ready_set server_key [])
    set s2 := takeUpTo PRINTPOS_BATCH_SIZE 2 [p]
      (lookupD st.poll_queues server_key []) (lookupD st.ready_set server_key []) with hs2
    obtain ⟨n3, he3, hm3⟩ := takeUpTo_picked_append PRINTPOS_BATCH_SIZE 1 s2.1
      (lookupD st.scan_queues server_key []) (lookupD st.scan_set server_key [])
    set s3 := takeUpTo PRINTPOS_BATCH_SIZE 1 s2.1
      (lookupD st.scan_queues server_key []) (lookupD st.scan_set server_key []) with hs3
    obtain ⟨n4, he4, hm4⟩ := takeUpTo_picked_append PRINTPOS_BATCH_SIZE s2.2.1.length
      s3.1 s2.2.1 s2.2.2
    refine ⟨n2 ++ n3 ++ n4, ?_, ?_⟩
    · rw [he4, he3, he2]
      simp
    · intro q hqq
      simp only [List.mem_append] at hqq
      rcases hqq with (hx | hx) | hx
      · exact Or.inl (hm2 q hx)
      · exact Or.inr (hm3 q hx)
      · have : q ∈ s2.2.1 := hm4 q hx
        exact Or.inl (takeUpTo_queue_sub PRINTPOS_BATCH_SIZE 2 [p] _ _ q this)

/-- Concrete scheduler fixture: expired lane holds Carol, ready rotation
Alice, Bob, Eve, scan lane Dave. -/
def trackerFixture : TrackerState :=
  { poll_queues := [("s1", ["Alice", "Bob", "Eve"])],
    ready_set := [("s1", ["Alice", "Bob", "Eve"])],
    cooldown_until := [],
    expired_queues := [("s1", ["Carol"])],
    expired_set := [("s1", ["Carol"])],
    scan_queues := [("s1", ["Dave"])],
    scan_set := [("s1", ["Dave"])],
    near_set := [("s1", ["Alice", "Bob", "Eve"])],
    empty_server_until := [],
    zones := zonesFixture,
    stats := [] }

/-- C9, witness: with all three lanes populated, the batch is Carol (expired
front), Alice and Bob (ready), Dave (scan) — four players, Carol first. -/
theorem C9_witness :
    lookupD trackerFixture.expired_queues "s1" [] = "Carol" :: []
    ∧ (pick_players trackerFixture "s1").1.length ≤ PRINTPOS_BATCH_SIZE
    ∧ (pick_players trackerFixture "s1").1 = ["Carol", "Alice", "Bob", "Dave"] :=
  ⟨by decide, (C9_batch_bound_and_expired_priority trackerFixture "s1").1, by decide⟩

/-- C8. After a playerlist refresh finds a server's connected-player pool
empty at time `t`, the position poll loop skips that server entirely — no
position-query (or any other) command is issued and no state changes — at
every tick strictly inside the window `t + EMPTY_SERVER_COOLDOWN_SECONDS`;
and that window constant is 300 seconds. -/
theorem C8_empty_server_pause
    (st : TrackerState) (server_key : String) (t now : Q)
    (resp_of : String → String → String) (rand_of : String → Nat)
    (hwindow : Q.blt now (Q.add t EMPTY_SERVER_COOLDOWN_SECONDS) = true) :
    EMPTY_SERVER_COOLDOWN_SECONDS = ⟨300, 1⟩
    ∧ poll_server_tick (update_connected_players st server_key [] t) server_key now
        resp_of rand_of
      = (update_connected_players st server_key [] t, []) := by
  refine ⟨rfl, ?_⟩
  have hlk : lookupD (update_connected_players st server_key [] t).empty_server_until
      server_key (⟨0, 1⟩ : Q) = Q.add t EMPTY_SERVER_COOLDOWN_SECONDS := by
    simp [update_connected_players, lookupD, lookupA_insertA_self]
  unfold poll_server_tick
  rw [hlk, hwindow]
  simp

/-- C8, witness: pool emptied at t = 0; at t = 299 (inside the 300 s window)
the tick for that server issues nothing and leaves the state alone. -/
theorem C8_witness :
    Q.blt ⟨299, 1⟩ (Q.add ⟨0, 1⟩ EMPTY_SERVER_COOLDOWN_SECONDS) = true
    ∧ (EMPTY_SERVER_COOLDOWN_SECONDS = ⟨300, 1⟩
       ∧ poll_server_tick (update_connected_players trackerFixture "s1" [] ⟨0, 1⟩) "s1" ⟨299, 1⟩
           (fun _ _ => "") (fun _ => 0)
         = (update_connected_players trackerFixture "s1" [] ⟨0, 1⟩, [])) :=
  ⟨by decide,
   C8_empty_server_pause trackerFixture "s1" ⟨0, 1⟩ ⟨299, 1⟩
     (fun _ _ => "") (fun _ => 0) (by decide)⟩

/-! ## Helper lemmas about waking cooldowns -/

theorem lookupA_some_mem {K V : Type} [DecidableEq K] :
    ∀ (m : List (K × V)) (k : K) (v : V), lookupA m k = some v → (k, v) ∈ m := by
  intro m
  induction m with
  | nil => intro k v h; simp [lookupA] at h
  | cons kv rest ih =>
    intro k v h
    obtain ⟨k', v'⟩ := kv
    by_cases hk : k' = k
    · subst hk
      simp [lookupA] at h
      subst h
      exact List.mem_cons_self _ _
    · simp only [lookupA, if_neg hk] at h
      exact List.mem_cons_of_mem _ (ih k v h)

theorem lookupA_of_mem_nodup {K V : Type} [DecidableEq K] :
    ∀ (m : List (K × V)) (k : K) (v : V),
      (m.map Prod.fst).Nodup → (k, v) ∈ m → lookupA m k = some v := by
  intro m
  induction m with
  | nil => intro k v _ h; simp at h
  | cons kv rest ih =>
    intro k v hnd hmem
    obtain ⟨k', v'⟩ := kv
    simp only [List.map_cons, List.nodup_cons] at hnd
    rcases List.mem_cons.mp hmem with heq | hmem'
    · rw [show k' = k from (congrArg Prod.fst heq.symm),
        show v' = v from (congrArg Prod.snd heq.symm)]
      simp [lookupA]
    · have hk : k' ≠ k := by
        intro h
        subst h
        exact hnd.1 (List.mem_map_of_mem Prod.fst hmem')
      simp only [lookupA, if_neg hk]
      exact ih k v hnd.2 hmem'

/-- `_wake_expired_for_server` never touches the ready or scan rotations. -/
theorem wake_step_untouched (server_key : String) (now_ts : Q) (acc : TrackerState)
    (e : (String × String) × Q) :
    (wake_step server_key now_ts acc e).poll_queues = acc.poll_queues
    ∧ (wake_step server_key now_ts acc e).scan_queues = acc.scan_queues
    ∧ (wake_step server_key now_ts acc e).ready_set = acc.ready_set := by
  unfold wake_step
  by_cases h1 : e.1.1 ≠ server_key
  · rw [if_pos h1]
    exact ⟨rfl, rfl, rfl⟩
  · rw [if_neg h1]
    by_cases h2 : Q.ble e.2 now_ts = true
    · rw [if_pos h2]
      dsimp only
      split
      · exact ⟨rfl, rfl, rfl⟩
      · exact ⟨rfl, rfl, rfl⟩
    · rw [if_neg h2]
      exact ⟨rfl, rfl, rfl⟩

theorem wake_fold_untouched (server_key : String) (now_ts : Q) :
    ∀ (entries : List ((String × String) × Q)) (acc : TrackerState),
      (entries.foldl (wake_step server_key now_ts) acc).poll_queues = acc.poll_queues
      ∧ (entries.foldl (wake_step server_key now_ts) acc).scan_queues = acc.scan_queues := by
  intro entries
  induction entries with
  | nil => intro acc; exact ⟨rfl, rfl⟩
  | cons e rest ih =>
    intro acc
    simp only [List.foldl_cons]
    obtain ⟨h1, h2, _⟩ := wake_step_untouched server_key now_ts acc e
    obtain ⟨g1, g2⟩ := ih (wake_step server_key now_ts acc e)
    exact ⟨g1.trans h1, g2.trans h2⟩

/-- While every cooldown entry of this (server, player) is still in the
future, the wake pass never puts the player into the expired lane. -/
theorem wake_fold_not_queued (server_key : String) (now_ts : Q) (player : String) :
    ∀ (entries : List ((String × String) × Q)) (acc : TrackerState),
      player ∉ lookupD acc.expired_queues server_key [] →
      (∀ u, ((server_key, player), u) ∈ entries → Q.ble u now_ts = false) →
      player ∉ lookupD (entries.foldl (wake_step server_key now_ts) acc).expired_queues
        server_key [] := by
  intro entries
  induction entries with
  | nil => intro acc h _; exact h
  | cons e rest ih =>
    intro acc hq hcond
    simp only [List.foldl_cons]
    apply ih
    · unfold wake_step
      by_cases h1 : e.1.1 ≠ server_key
      · rw [if_pos h1]; exact hq
      · rw [if_neg h1]
        push_neg at h1
        by_cases h2 : Q.ble e.2 now_ts = true
        · rw [if_pos h2]
          have hne : e.1.2 ≠ player := by
            intro hp
            have he : e = ((server_key, player), e.2) := by
              rw [← h1, ← hp]
            have hm : ((server_key, player), e.2) ∈ e :: rest := by
              rw [← he]
              exact List.mem_cons_self _ _
            have hcf := hcond e.2 hm
            rw [h2] at hcf
            exact Bool.noConfusion hcf
          dsimp only
          split
          · simp only [lookupD, lookupA_insertA_self, Option.getD_some, List.mem_append,
              List.mem_singleton]
            push_neg
            exact ⟨hq, fun h => hne h.symm⟩
          · exact hq
        · rw [if_neg h2]; exact hq
    · intro u hu
      exact hcond u (List.mem_cons_of_mem e hu)

/-- A player already in the expired lane stays there through a wake step. -/
theorem wake_step_keeps (server_key : String) (now_ts : Q) (acc : TrackerState)
    (e : (String × String) × Q) (player : String)
    (h : player ∈ lookupD acc.expired_queues server_key []) :
    player ∈ lookupD (wake_step server_key now_ts acc e).expired_queues server_key [] := by
  unfold wake_step
  by_cases h1 : e.1.1 ≠ server_key
  · rw [if_pos h1]; exact h
  · rw [if_neg h1]
    by_cases h2 : Q.ble e.2 now_ts = true
    · rw [if_pos h2]
      dsimp only
      split
      · simp only [lookupD, lookupA_insertA_self, Option.getD_some, List.mem_append]
        exact Or.inl h
      · exact h
    · rw [if_neg h2]; exact h

theorem wake_fold_keeps (server_key : String) (now_ts : Q) (player : String) :
    ∀ (entries : List ((String × String) × Q)) (acc : TrackerState),
      player ∈ lookupD acc.expired_queues server_key [] →
      player ∈ lookupD (entries.foldl (wake_step server_key now_ts) acc).expired_queues
        server_key [] := by
  intro entries
  induction entries with
  | nil => intro acc h; exact h
  | cons e rest ih =>
    intro acc h
    simp only [List.foldl_cons]
    exact ih _ (wake_step_keeps server_key now_ts acc e player h)

/-- A wake step for a different cooldown key does not put the player into the
expired set and leaves the ready set alone. -/
theorem wake_step_set_preserve (server_key : String) (now_ts : Q) (acc : TrackerState)
    (e : (String × String) × Q) (player : String)
    (hkey : e.1 ≠ (server_key, player))
    (hset : player ∉ lookupD acc.expired_set server_key [])
    (hready : player ∉ lookupD acc.ready_set server_key []) :
    player ∉ lookupD (wake_step server_key now_ts acc e).expired_set server_key []
    ∧ player ∉ lookupD (wake_step server_key now_ts acc e).ready_set server_key [] := by
  unfold wake_step
  by_cases h1 : e.1.1 ≠ server_key
  · rw [if_pos h1]; exact ⟨hset, hready⟩
  · rw [if_neg h1]
    push_neg at h1
    have hne : e.1.2 ≠ player := by
      intro hp
      apply hkey
      rw [← h1, ← hp]
    by_cases h2 : Q.ble e.2 now_ts = true
    · rw [if_pos h2]
      dsimp only
      split
      · refine ⟨?_, hready⟩
        simp only [lookupD, lookupA_insertA_self, Option.getD_some, List.mem_append,
          List.mem_singleton]
        push_neg
        exact ⟨hset, fun h => hne h.symm⟩
      · exact ⟨hset, hready⟩
    · rw [if_neg h2]; exact ⟨hset, hready⟩

/-- When the player's (unique) cooldown entry for this server has expired and
the player sits in neither the expired nor the ready set, the wake pass puts
them into the expired fast lane. -/
theorem wake_fold_adds (server_key : String) (now_ts : Q) (player : String) :
    ∀ (entries : List ((String × String) × Q)) (acc : TrackerState) (u : Q),
      (entries.map Prod.fst).Nodup →
      ((server_key, player), u) ∈ entries →
      Q.ble u now_ts = true →
      player ∉ lookupD acc.expired_set server_key [] →
      player ∉ lookupD acc.ready_set server_key [] →
      player ∈ lookupD (entries.foldl (wake_step server_key now_ts) acc).expired_queues
        server_key [] := by
  intro entries
  induction entries with
  | nil => intro acc u _ h; simp at h
  | cons e rest ih =>
    intro acc u hnd hmem hble hset hready
    simp only [List.map_cons, List.nodup_cons] at hnd
    simp only [List.foldl_cons]
    rcases List.mem_cons.mp hmem with heq | hmem'
    · apply wake_fold_keeps
      rw [← heq]
      unfold wake_step
      rw [if_neg (by simp)]
      rw [if_pos hble]
      dsimp only
      rw [if_pos ⟨hset, hready⟩]
      simp only [lookupD, lookupA_insertA_self, Option.getD_some, List.mem_append,
        List.mem_singleton]
      exact Or.inr trivial

    · have hkey : e.1 ≠ (server_key, player) := by
        intro hk
        exact hnd.1 (hk ▸ List.mem_map_of_mem Prod.fst hmem')
      obtain ⟨hs, hr⟩ := wake_step_set_preserve server_key now_ts acc e player hkey hset hready
      exact ih _ u hnd.2 hmem' hble hs hr

/-- C6. Far-player throttling. (i) When the parsed position of a reply is
farther than `FAR_DISTANCE_METERS` (squared comparison) from every configured
zone center, `process_printpos_response` sends nothing, stamps the player's
cooldown-until with `now + FAR_SKIP_SECONDS`, and performs no zone/teleport
check (the tp_zones state is untouched). (ii) While such a cooldown entry is
in the future and the player sits in no lane, a poll tick cannot select them:
the wake pass does not move them and the picker only draws from the lanes.
(iii) Once the entry has expired, `_wake_expired_for_server` returns the
player to the eligible pool by waking them into the expired fast lane. -/
theorem C6_far_player_throttle
    (st : TrackerState) (now : Q) (rand : Nat)
    (server_key player_name resp_text : String) (x y z d2 : Q)
    (hparse : coordSearch resp_text = some (x, y, z))
    (hmin : min_dist2_to_any_zone st.zones.zones x y z = some d2)
    (hfar : Q.blt (Q.mul FAR_DISTANCE_METERS FAR_DISTANCE_METERS) d2 = true) :
    ((process_printpos_response true true st now rand server_key player_name resp_text).2 = []
      ∧ lookupA (process_printpos_response true true st now rand server_key player_name
          resp_text).1.cooldown_until (server_key, player_name)
        = some (Q.add now FAR_SKIP_SECONDS)
      ∧ (process_printpos_response true true st now rand server_key player_name
          resp_text).1.zones = st.zones)
    ∧ (∀ (st2 : TrackerState) (now2 u : Q),
        (st2.cooldown_until.map Prod.fst).Nodup →
        lookupA st2.cooldown_until (server_key, player_name) = some u →
        Q.ble u now2 = false →
        player_name ∉ lookupD st2.expired_queues server_key [] →
        player_name ∉ lookupD st2.poll_queues server_key [] →
        player_name ∉ lookupD st2.scan_queues server_key [] →
        player_name ∉ (pick_players (wake_expired_for_server st2 server_key now2) server_key).1)
    ∧ (∀ (st3 : TrackerState) (now3 u : Q),
        (st3.cooldown_until.map Prod.fst).Nodup →
        lookupA st3.cooldown_until (server_key, player_name) = some u →
        Q.ble u now3 = true →
        player_name ∉ lookupD st3.expired_set server_key [] →
        player_name ∉ lookupD st3.ready_set server_key [] →
        player_name ∈ lookupD (wake_expired_for_server st3 server_key now3).expired_queues
          server_key []) := by
  refine ⟨?_, ?_, ?_⟩
  · simp only [process_printpos_response, hparse, hmin, hfar, setStats, Bool.not_true,
      Bool.or_self, Bool.false_eq_true, if_false, if_true]
    refine ⟨trivial, ?_, trivial⟩
    exact lookupA_insertA_self _ _ _
  · intro st2 now2 u hnd hcd hble hq1 hq2 hq3
    intro hmem
    unfold wake_expired_for_server at hmem
    have hw := pick_players_mem _ server_key player_name hmem
    obtain ⟨hpq, hsq⟩ := wake_fold_untouched server_key now2 st2.cooldown_until st2
    have hnq : player_name ∉
        lookupD (st2.cooldown_until.foldl (wake_step server_key now2) st2).expired_queues
          server_key [] := by
      apply wake_fold_not_queued server_key now2 player_name st2.cooldown_until st2 hq1
      intro v hv
      have hl := lookupA_of_mem_nodup st2.cooldown_until (server_key, player_name) v hnd hv
      rw [hcd] at hl
      injection hl with hvu
      rw [← hvu]
      exact hble
    rcases hw with h | h | h
    · exact hnq h
    · rw [hpq] at h
      exact hq2 h
    · rw [hsq] at h
      exact hq3 h
  · intro st3 now3 u hnd3 hcd3 hble3 hexp hready
    unfold wake_expired_for_server
    exact wake_fold_adds server_key now3 player_name st3.cooldown_until st3 u hnd3
      (lookupA_some_mem _ _ _ hcd3) hble3 hexp hready

def farReply : String := "(500.0, 1.0, 2.0)"

def farPos : Q × Q × Q := (coordSearch farReply).getD (⟨0, 1⟩, ⟨0, 1⟩, ⟨0, 1⟩)

def farD2 : Q :=
  (min_dist2_to_any_zone zonesFixture.zones farPos.1 farPos.2.1 farPos.2.2).getD ⟨0, 1⟩

def trackerFixtureCooldown : TrackerState :=
  { trackerFixture with cooldown_until := [(("s1", "Frank"), ⟨60, 1⟩)] }

/-- C6, witness: a reply putting Frank 500 m out on the x axis (beyond the
200 m far threshold of both fixture zones) stamps cooldown-until now+60 and
triggers no zone check; with such an entry at 60 s, the tick at 30 s cannot
pick Frank, and the wake pass at 61 s puts Frank into the expired lane. -/
theorem C6_witness :
    (coordSearch farReply = some (farPos.1, farPos.2.1, farPos.2.2)
      ∧ min_dist2_to_any_zone trackerFixture.zones.zones farPos.1 farPos.2.1 farPos.2.2
          = some farD2
      ∧ Q.blt (Q.mul FAR_DISTANCE_METERS FAR_DISTANCE_METERS) farD2 = true)
    ∧ ((process_printpos_response true true trackerFixture ⟨50, 1⟩ 0 "s1" "Frank" farReply).2
          = []
      ∧ lookupA (process_printpos_response true true trackerFixture ⟨50, 1⟩ 0 "s1" "Frank"
          farReply).1.cooldown_until ("s1", "Frank") = some (Q.add ⟨50, 1⟩ FAR_SKIP_SECONDS)
      ∧ (process_printpos_response true true trackerFixture ⟨50, 1⟩ 0 "s1" "Frank"
          farReply).1.zones = trackerFixture.zones)
    ∧ "Frank" ∉ (pick_players (wake_expired_for_server trackerFixtureCooldown "s1" ⟨30, 1⟩)
        "s1").1
    ∧ "Frank" ∈ lookupD (wake_expired_for_server trackerFixtureCooldown "s1"
        ⟨61, 1⟩).expired_queues "s1" [] :=
  ⟨⟨by decide, by decide, by decide⟩,
   (C6_far_player_throttle trackerFixture ⟨50, 1⟩ 0 "s1" "Frank" farReply
      farPos.1 farPos.2.1 farPos.2.2 farD2 (by decide) (by decide) (by decide)).1,
   (C6_far_player_throttle trackerFixture ⟨50, 1⟩ 0 "s1" "Frank" farReply
      farPos.1 farPos.2.1 farPos.2.2 farD2 (by decide) (by decide) (by decide)).2.1
     trackerFixtureCooldown ⟨30, 1⟩ ⟨60, 1⟩
     (by decide) (by decide) (by decide) (by decide) (by decide) (by decide),
   (C6_far_player_throttle trackerFixture ⟨50, 1⟩ 0 "s1" "Frank" farReply
      farPos.1 farPos.2.1 farPos.2.2 farD2 (by decide) (by decide) (by decide)).2.2
     trackerFixtureCooldown ⟨61, 1⟩ ⟨60, 1⟩
     (by decide) (by decide) (by decide) (by decide) (by decide)⟩
